import Mathlib

/-!
Verification of the Agent Bridge (`packages/modal-infra/src/sandbox/bridge.py`).

This file gives a shallow embedding of the bridge's pure logic:
Python dictionaries become structures with `Option` fields, Python string
truthiness becomes `pyTruthy`, and the SSE prompt-session translator becomes
an explicit state machine folded over a list of inbound events.
-/

set_option maxRecDepth 4000

namespace Bridge

/-- Python truthiness of an optional string: `None` and `""` are falsy. -/
def pyTruthy : Option String → Bool
  | none => false
  | some s => !(s.isEmpty)

/-- Python `a or b` on optional strings: the first operand if truthy, else the second. -/
def pyOrStr (a b : Option String) : Option String :=
  if pyTruthy a then a else b

/-- Python `a or d` where `d` is a string default: `a` if truthy, else `d`. -/
def pyStrOr (a : Option String) (d : String) : String :=
  if pyTruthy a then a.getD "" else d

/-! ## Git identity (`_handle_prompt` lines 456-464, `GitUser`) -/

/-- `GitUser` from `sandbox/types.py` as used by `_configure_git_identity`. -/
structure GitUser where
  name : String
  email : String
deriving DecidableEq

/-- The `author` object attached to a prompt command
(`cmd.get("author", {})`, fields `githubName` / `githubEmail`). -/
structure Author where
  githubName : Option String
  githubEmail : Option String
deriving DecidableEq

/-- The git identity `_handle_prompt` configures before a prompt
(bridge.py lines 456-464): only when both author fields are truthy does it
call `_configure_git_identity`; otherwise no identity is configured at all. -/
def gitIdentityForPrompt (a : Author) : Option GitUser :=
  if pyTruthy a.githubName && pyTruthy a.githubEmail then
    some { name := a.githubName.getD "", email := a.githubEmail.getD "" }
  else
    none

/-! ## Prompt request body (`_build_prompt_request_body`, lines 579-606) -/

/-- The `model` field of the prompt request body. -/
structure ModelRef where
  providerID : String
  modelID : String
deriving DecidableEq

/-- Request body for `POST .../prompt_async`. -/
structure PromptRequestBody where
  partsText : String
  messageID : Option String
  model : Option ModelRef
deriving DecidableEq

/-- Characters of `s` strictly before the first `/` (Python `model.split("/", 1)[0]`). -/
def beforeSlash (s : String) : String :=
  ⟨s.toList.takeWhile (fun c => c ≠ '/')⟩

/-- Characters of `s` strictly after the first `/` (Python `model.split("/", 1)[1]`). -/
def afterSlash (s : String) : String :=
  ⟨(s.toList.dropWhile (fun c => c ≠ '/')).drop 1⟩

/-- Whether `s` contains a `/` (Python `"/" in model`). -/
def containsSlash (s : String) : Bool :=
  s.toList.any (fun c => c = '/')

/-- `_build_prompt_request_body` (bridge.py lines 579-606). -/
def buildPromptRequestBody (content : String) (model : Option String)
    (opencodeMessageId : Option String) : PromptRequestBody :=
  let mid : Option String := if pyTruthy opencodeMessageId then opencodeMessageId else none
  let m : Option ModelRef :=
    if pyTruthy model then
      let ms := model.getD ""
      if containsSlash ms then
        some { providerID := beforeSlash ms, modelID := afterSlash ms }
      else
        some { providerID := "anthropic", modelID := ms }
    else
      none
  { partsText := content, messageID := mid, model := m }

/-! ## Push (`_handle_push` lines 1067-1152, `_resolve_github_token` lines 1049-1065) -/

/-- The fields of a `push` command the handler reads. -/
structure PushCmd where
  branchName : String
  repoOwner : Option String
  repoName : Option String
  githubToken : Option String
deriving DecidableEq

/-- The environment variables consulted by the push handler. -/
structure PushEnv where
  githubAppToken : Option String
  repoOwner : Option String
  repoName : Option String
deriving DecidableEq

/-- `_resolve_github_token`: command token first, then `GITHUB_APP_TOKEN`, else `""`. -/
def resolveGithubToken (cmd : PushCmd) (env : PushEnv) : String :=
  if pyTruthy cmd.githubToken then cmd.githubToken.getD ""
  else if pyTruthy env.githubAppToken then env.githubAppToken.getD ""
  else ""

/-- Events the push handler can send upstream. -/
inductive PushEvent where
  | pushError (error : String) (branchName : Option String)
  | pushComplete (branchName : String)
deriving DecidableEq

/-- The `git push` invocation the handler runs, when it runs one. -/
structure GitPush where
  url : String
  refspec : String
  forced : Bool
deriving DecidableEq

/-- `cmd.get("repoOwner") or os.environ.get("REPO_OWNER", "")` (line 1070). -/
def resolvedRepoOwner (cmd : PushCmd) (env : PushEnv) : String :=
  if pyTruthy cmd.repoOwner then cmd.repoOwner.getD "" else env.repoOwner.getD ""

/-- `cmd.get("repoName") or os.environ.get("REPO_NAME", "")` (line 1071). -/
def resolvedRepoName (cmd : PushCmd) (env : PushEnv) : String :=
  if pyTruthy cmd.repoName then cmd.repoName.getD "" else env.repoName.getD ""

/-- The token-bearing push URL (lines 1109-1111). -/
def pushUrlOf (token owner name : String) : String :=
  "https://x-access-token:" ++ token ++ "@github.com/" ++ owner ++ "/" ++ name ++ ".git"

/-- `_handle_push` (bridge.py lines 1067-1152), as a function of the command, the
environment, whether a `*/.git` repository was found under the workspace, and the
exit code the `git push` subprocess would return.  Result: the push invocation
actually run (if any) and the events sent upstream. -/
def handlePush (cmd : PushCmd) (env : PushEnv) (repoFound : Bool) (pushExit : Int) :
    Option GitPush × List PushEvent :=
  let branchName := cmd.branchName
  let repoOwner := resolvedRepoOwner cmd env
  let repoName := resolvedRepoName cmd env
  let githubToken := resolveGithubToken cmd env
  if !repoFound then
    (none, [PushEvent.pushError "No repository found" none])
  else
    let refspec := "HEAD:refs/heads/" ++ branchName
    if githubToken.isEmpty || repoOwner.isEmpty || repoName.isEmpty then
      (none, [PushEvent.pushError "Push failed - GitHub authentication token is required"
        (some branchName)])
    else
      let push : GitPush :=
        { url := pushUrlOf githubToken repoOwner repoName, refspec := refspec, forced := true }
      if pushExit ≠ 0 then
        (some push, [PushEvent.pushError "Push failed - authentication may be required"
          (some branchName)])
      else
        (some push, [PushEvent.pushComplete branchName])

/-! ## Run loop and fatal connection errors
(`run` lines 190-262, `_connect_and_run` lines 285-346, `_is_fatal_connection_error`) -/

/-- Substring test on character lists (Python `pattern in error_str`). -/
def isPfxOf : List Char → List Char → Bool
  | [], _ => true
  | _ :: _, [] => false
  | a :: as, b :: bs => a = b && isPfxOf as bs

/-- Whether `needle` occurs somewhere inside `hay`. -/
def containsSub (hay needle : List Char) : Bool :=
  match hay with
  | [] => isPfxOf needle []
  | _ :: rest => isPfxOf needle hay || containsSub rest needle

/-- `_is_fatal_connection_error` (bridge.py lines 264-283). -/
def isFatalConnectionError (errorStr : String) : Bool :=
  ["HTTP 401", "HTTP 403", "HTTP 404", "HTTP 410"].any
    (fun p => containsSub errorStr.toList p.toList)

/-- Outcome of one `_connect_and_run` invocation, as seen by the `run` loop. -/
inductive ConnectOutcome where
  /-- The websocket handshake was rejected (`InvalidStatus` with this HTTP status code). -/
  | invalidStatus (status : Nat)
  /-- The connection closed mid-run (`websockets.ConnectionClosed`). -/
  | connectionClosed (code : Nat)
  /-- Any other exception, carrying `str(e)`. -/
  | otherError (msg : String)
  /-- `_connect_and_run` returned normally; `shutdownRequested` records whether a
  `shutdown` command set the shutdown flag during the connection. -/
  | cleanReturn (shutdownRequested : Bool)
deriving DecidableEq

/-- What the body of the `run` loop does with one connection outcome. -/
inductive LoopEffect where
  | sessionTerminated
  | retry
  | fatal
  | normal (shutdownRequested : Bool)
deriving DecidableEq

/-- `_connect_and_run`'s exception translation (lines 340-346) combined with `run`'s
exception handlers (lines 211-243): `InvalidStatus` with status 401/403/404/410 becomes
`SessionTerminatedError`; other statuses re-raise and reach the generic handler, whose
message is `"server rejected WebSocket connection: HTTP <status>"`. -/
def classifyOutcome : ConnectOutcome → LoopEffect
  | ConnectOutcome.invalidStatus s =>
      if s = 401 ∨ s = 403 ∨ s = 404 ∨ s = 410 then LoopEffect.sessionTerminated
      else if isFatalConnectionError
        ("server rejected WebSocket connection: HTTP " ++ toString s) then LoopEffect.fatal
      else LoopEffect.retry
  | ConnectOutcome.connectionClosed _ => LoopEffect.retry
  | ConnectOutcome.otherError msg =>
      if isFatalConnectionError msg then LoopEffect.fatal else LoopEffect.retry
  | ConnectOutcome.cleanReturn sr => LoopEffect.normal sr

/-- Result of the modelled `run` loop: the final shutdown flag, the number of
connection attempts consumed, and the number of reconnect delays slept. -/
structure RunLoopResult where
  shutdown : Bool
  attempts : Nat
  reconnects : Nat
deriving DecidableEq

/-- `AgentBridge.run`'s main loop (bridge.py lines 206-258), driven by the list of
outcomes successive `_connect_and_run` calls would produce.  Returning (rather than
raising) models the bridge process exiting with code 0. -/
def runLoop (shutdown : Bool) : List ConnectOutcome → RunLoopResult
  | [] => { shutdown := shutdown, attempts := 0, reconnects := 0 }
  | o :: rest =>
    if shutdown then { shutdown := shutdown, attempts := 0, reconnects := 0 }
    else
      match classifyOutcome o with
      | LoopEffect.sessionTerminated => { shutdown := true, attempts := 1, reconnects := 0 }
      | LoopEffect.fatal => { shutdown := true, attempts := 1, reconnects := 0 }
      | LoopEffect.retry =>
          let r := runLoop shutdown rest
          { shutdown := r.shutdown, attempts := r.attempts + 1, reconnects := r.reconnects + 1 }
      | LoopEffect.normal sr =>
          if sr then { shutdown := true, attempts := 1, reconnects := 0 }
          else
            let r := runLoop shutdown rest
            { shutdown := r.shutdown, attempts := r.attempts + 1,
              reconnects := r.reconnects + 1 }

/-! ## Ascending ID generator (`OpenCodeIdentifier.ascending`, lines 73-93)

IDs are modelled as their character-code sequences (`List Nat`), so that
lexicographic comparison of the generated strings is explicit. -/

/-- The class-level monotone-generation state (`_last_timestamp`, `_counter`). -/
structure IdGenState where
  lastTimestamp : Nat
  counter : Nat
deriving DecidableEq

/-- The state update performed by one `ascending` call with clock reading `ts`
(milliseconds): reset the counter when the millisecond advances, then increment. -/
def idStep (s : IdGenState) (ts : Nat) : IdGenState :=
  if ts ≠ s.lastTimestamp then { lastTimestamp := ts, counter := 1 }
  else { lastTimestamp := s.lastTimestamp, counter := s.counter + 1 }

/-- `encoded = current_timestamp * 0x1000 + counter` for a post-call state. -/
def encodedOf (s : IdGenState) : Nat :=
  s.lastTimestamp * 0x1000 + s.counter

/-- `encoded_48bit = encoded & 0xFFFFFFFFFFFF`. -/
def encoded48Of (s : IdGenState) : Nat :=
  encodedOf s % 2 ^ 48

/-- Fixed-width big-endian base-16 digits of `n` (the digit sequence of
`encoded_48bit.to_bytes(6, "big").hex()`). -/
def hexDigitsBE : Nat → Nat → List Nat
  | 0, _ => []
  | w + 1, n => n / 16 ^ w :: hexDigitsBE w (n % 16 ^ w)

/-- Character code of one lowercase hex digit (`0`-`9`, `a`-`f`). -/
def hexCharCode (d : Nat) : Nat :=
  if d < 10 then 48 + d else 87 + d

/-- Character codes of a string. -/
def strCodes (s : String) : List Nat :=
  s.toList.map Char.toNat

/-- The `PREFIXES` table (`session`/`message`/`part`); `none` models the
`ValueError` raised for an unknown key. -/
def idPfxTable : String → Option String
  | "session" => some "ses"
  | "message" => some "msg"
  | "part" => some "prt"
  | _ => none

/-- Character codes of one generated ID: `{prefix}_{timestamp_hex}{random_base62}`,
where `p` is the resolved prefix codes, `s` the post-call generator state, and
`suffix` the 14 random base62 character codes. -/
def idCodes (p : List Nat) (s : IdGenState) (suffix : List Nat) : List Nat :=
  p ++ [95] ++ (hexDigitsBE 12 (encoded48Of s)).map hexCharCode ++ suffix

/-- One `ascending` call: clock reading `ts`, random suffix codes `suffix`.
Returns the ID's character codes and the new generator state (or `none` for an
unknown prefix key). -/
def ascending (pfxKey : String) (s : IdGenState) (ts : Nat) (suffix : List Nat) :
    Option (List Nat × IdGenState) :=
  match idPfxTable pfxKey with
  | none => none
  | some p =>
      let s' := idStep s ts
      some (idCodes (strCodes p) s' suffix, s')

/-- The IDs produced by a sequence of `ascending` calls with one prefix: each call
supplies its clock reading and its random suffix. -/
def idRun (p : List Nat) (s : IdGenState) : List (Nat × List Nat) → List (List Nat)
  | [] => []
  | (ts, suffix) :: rest =>
      let s' := idStep s ts
      idCodes p s' suffix :: idRun p s' rest

/-- Well-behaved call sequence: the clock never goes backwards, no millisecond sees
more than `0x1000` calls, and no encoded value reaches `2^48` (no 48-bit wrap). -/
def validRun (s : IdGenState) : List (Nat × List Nat) → Bool
  | [] => true
  | (ts, _) :: rest =>
      let s' := idStep s ts
      decide (s.lastTimestamp ≤ ts) && decide (s'.counter ≤ 0x1000) &&
        decide (encodedOf s' < 2 ^ 48) && validRun s' rest

/-- Strict lexicographic order on character-code sequences (string comparison). -/
def lexLt : List Nat → List Nat → Bool
  | [], [] => false
  | [], _ :: _ => true
  | _ :: _, [] => false
  | a :: as, b :: bs => if a < b then true else if b < a then false else lexLt as bs

/-! ## Association-list maps (Python `dict` with insertion order) -/

/-- `m[k] = v`: replace in place when the key exists, else append at the end. -/
def assocSet {α : Type} (m : List (String × α)) (k : String) (v : α) :
    List (String × α) :=
  match m with
  | [] => [(k, v)]
  | (k', v') :: rest => if k' = k then (k, v) :: rest else (k', v') :: assocSet rest k v

/-- `m.get(k, d)`. -/
def assocGetD {α : Type} (m : List (String × α)) (k : String) (d : α) : α :=
  match m with
  | [] => d
  | (k', v') :: rest => if k' = k then v' else assocGetD rest k d

/-- `m.pop(k, ...)`'s removal effect. -/
def assocRemove {α : Type} (m : List (String × α)) (k : String) : List (String × α) :=
  match m with
  | [] => []
  | (k', v') :: rest => if k' = k then assocRemove rest k else (k', v') :: assocRemove rest k

/-! ## SSE events and parts (as read by `_stream_opencode_response_sse`) -/

/-- An agent message part, flattened to exactly the fields the bridge reads
(`part.get(...)` and `part.get("state", {}).get(...)`).  Absent fields take the
defaults the Python `get` calls supply. -/
structure Part where
  type : String
  id : String
  sessionID : Option String
  messageID : String
  text : String
  tool : String
  callID : String
  stateStatus : String
  stateInput : List (String × String)
  stateOutput : String
  cost : Option String
  tokens : Option String
  reason : Option String
deriving DecidableEq

/-- The part a missing `props["part"]` defaults to (`props.get("part", {})`). -/
def defaultPart : Part :=
  { type := "", id := "", sessionID := none, messageID := "", text := "", tool := "",
    callID := "", stateStatus := "", stateInput := [], stateOutput := "",
    cost := none, tokens := none, reason := none }

/-- `props["info"]` of a `message.updated` event. -/
structure MsgInfo where
  id : String
  sessionID : Option String
  parentID : String
  role : String
  finish : String
deriving DecidableEq

/-- The info a missing `props["info"]` defaults to. -/
def defaultMsgInfo : MsgInfo :=
  { id := "", sessionID := none, parentID := "", role := "", finish := "" }

/-- One inbound SSE event, flattened to the fields the translator reads:
`type`, `properties.sessionID`, `properties.part`, `properties.delta`,
`properties.info`, `properties.status.type`, `properties.error.message`. -/
structure SSEEvent where
  type : String
  sessionID : Option String
  part : Option Part
  delta : Option String
  info : Option MsgInfo
  statusType : Option String
  errorMessage : Option String
deriving DecidableEq

/-- Events the prompt session emits on the control-plane link (before the final
`execution_complete`). -/
inductive BridgeEvent where
  | token (content : String) (messageId : String)
  | toolCall (tool : String) (args : List (String × String)) (callId : String)
      (status : String) (output : String) (messageId : String)
  | stepStart (messageId : String)
  | stepFinish (cost tokens reason : Option String) (messageId : String)
  | error (error : String) (messageId : String)
deriving DecidableEq

/-- `_transform_part_to_event` (bridge.py lines 524-577). -/
def transformPartToEvent (part : Part) (messageId : String) : Option BridgeEvent :=
  if part.type = "text" then
    if part.text ≠ "" then some (BridgeEvent.token part.text messageId) else none
  else if part.type = "tool" then
    if (part.stateStatus = "pending" ∨ part.stateStatus = "") ∧ part.stateInput = [] then
      none
    else
      some (BridgeEvent.toolCall part.tool part.stateInput part.callID part.stateStatus
        part.stateOutput messageId)
  else if part.type = "step-finish" then
    some (BridgeEvent.stepFinish part.cost part.tokens part.reason messageId)
  else if part.type = "step-start" then
    some (BridgeEvent.stepStart messageId)
  else
    none

/-! ## Prompt-session state and the translator state machine -/

/-- `MAX_PENDING_PART_EVENTS` (bridge.py line 140). -/
def MAX_PENDING_PART_EVENTS : Nat := 2000

/-- The per-prompt mutable state of `_stream_opencode_response_sse`
(lines 680-685). -/
structure PromptState where
  cumulativeText : List (String × String)
  emittedToolStates : List String
  allowedAssistantMsgIds : List String
  pendingParts : List (String × List (Part × Option String))
  pendingTotal : Nat
  dropLogged : Bool
deriving DecidableEq

/-- The fresh state created at the start of each prompt. -/
def initState : PromptState :=
  { cumulativeText := [], emittedToolStates := [], allowedAssistantMsgIds := [],
    pendingParts := [], pendingTotal := 0, dropLogged := false }

/-- Static configuration of one prompt session: the bridge's agent session id, the
generated ascending user-message id, and the control plane's message id. -/
structure PromptCfg where
  agentSessionId : String
  opencodeMessageId : String
  cpMessageId : String
deriving DecidableEq

/-- `handle_part` (bridge.py lines 705-757): process one `(part, delta)` pair,
returning the updated state and the events to yield. -/
def handlePart (cfg : PromptCfg) (st : PromptState) (part : Part)
    (delta : Option String) : PromptState × List BridgeEvent :=
  if part.type = "text" then
    let cum :=
      if pyTruthy delta then assocGetD st.cumulativeText part.id "" ++ delta.getD ""
      else part.text
    ({ st with cumulativeText := assocSet st.cumulativeText part.id cum },
     if cum ≠ "" then [BridgeEvent.token cum cfg.cpMessageId] else [])
  else if part.type = "tool" then
    match transformPartToEvent part cfg.cpMessageId with
    | some ev =>
        let toolKey := "tool:" ++ part.callID ++ ":" ++ part.stateStatus
        if toolKey ∈ st.emittedToolStates then (st, [])
        else ({ st with emittedToolStates := toolKey :: st.emittedToolStates }, [ev])
    | none => (st, [])
  else if part.type = "step-start" then
    (st, [BridgeEvent.stepStart cfg.cpMessageId])
  else if part.type = "step-finish" then
    (st, [BridgeEvent.stepFinish part.cost part.tokens part.reason cfg.cpMessageId])
  else
    (st, [])

/-- Fold of `handle_part` over a list of `(part, delta)` pairs (this is exactly the
flush loop run on admission, lines 825-827). -/
def handleParts (cfg : PromptCfg) (st : PromptState) :
    List (Part × Option String) → PromptState × List BridgeEvent
  | [] => (st, [])
  | (part, delta) :: rest =>
      let o := handlePart cfg st part delta
      let o2 := handleParts cfg o.1 rest
      (o2.1, o.2 ++ o2.2)

/-- `buffer_part` (bridge.py lines 690-703).  The returned `Nat` counts the drop
warnings logged by this call (0 or 1). -/
def bufferPart (st : PromptState) (ocMsgId : String) (part : Part)
    (delta : Option String) : PromptState × Nat :=
  if st.pendingTotal ≥ MAX_PENDING_PART_EVENTS then
    if !st.dropLogged then ({ st with dropLogged := true }, 1) else (st, 0)
  else
    let old := assocGetD st.pendingParts ocMsgId []
    ({ st with pendingParts := assocSet st.pendingParts ocMsgId (old ++ [(part, delta)]),
               pendingTotal := st.pendingTotal + 1 }, 0)

/-- How one SSE event leaves the translator loop. -/
inductive StepOutcome where
  /-- Keep consuming the SSE stream. -/
  | next
  /-- `session.idle` (or `session.status` idle): run the final-state fetch and return. -/
  | idle
  /-- `session.error`: return after yielding the error event. -/
  | errored
deriving DecidableEq

/-- Result of processing one SSE event: new state, events yielded, drop warnings
logged, and how the loop proceeds. -/
structure StepOut where
  st : PromptState
  events : List BridgeEvent
  dropLogs : Nat
  outcome : StepOutcome
deriving DecidableEq

/-- A pass-through step: nothing emitted, no state change, loop continues. -/
def skipStep (st : PromptState) : StepOut :=
  { st := st, events := [], dropLogs := 0, outcome := StepOutcome.next }

/-- The state change of admission (bridge.py lines 821-822): record the assistant
message id as allowed and pop its buffered parts. -/
def admitState (st : PromptState) (msgId : String) : PromptState :=
  { st with
    allowedAssistantMsgIds :=
      if msgId ∈ st.allowedAssistantMsgIds then st.allowedAssistantMsgIds
      else msgId :: st.allowedAssistantMsgIds
    pendingParts := assocRemove st.pendingParts msgId }

/-- The state `admitStep` flushes from: the admitted state with the popped
entries subtracted from the running total. -/
def flushState (st : PromptState) (msgId : String) : PromptState :=
  { admitState st msgId with
    pendingTotal := st.pendingTotal - (assocGetD st.pendingParts msgId []).length }

/-- The `message.updated` branch body (bridge.py lines 800-833): admit a matching
assistant message and flush the parts buffered under its id. -/
def admitStep (cfg : PromptCfg) (st : PromptState) (info : MsgInfo) : StepOut :=
  if info.sessionID = some cfg.agentSessionId then
    if info.role = "assistant" ∧ info.parentID = cfg.opencodeMessageId ∧
        info.id ≠ "" then
      if assocGetD st.pendingParts info.id [] ≠ [] then
        { st := (handleParts cfg (flushState st info.id)
            (assocGetD st.pendingParts info.id [])).1
          events := (handleParts cfg (flushState st info.id)
            (assocGetD st.pendingParts info.id [])).2
          dropLogs := 0
          outcome := StepOutcome.next }
      else
        skipStep (admitState st info.id)
    else
      skipStep st
  else
    skipStep st

/-- The `message.part.updated` branch (bridge.py lines 835-843): process the part
immediately when its message is admitted, else buffer it under its message id. -/
def partStep (cfg : PromptCfg) (st : PromptState) (part : Part)
    (delta : Option String) : StepOut :=
  if part.messageID ∈ st.allowedAssistantMsgIds then
    { st := (handlePart cfg st part delta).1
      events := (handlePart cfg st part delta).2
      dropLogs := 0
      outcome := StepOutcome.next }
  else if part.messageID ≠ "" then
    { st := (bufferPart st part.messageID part delta).1
      events := []
      dropLogs := (bufferPart st part.messageID part delta).2
      outcome := StepOutcome.next }
  else
    skipStep st

/-- The `session.idle` branch (bridge.py lines 845-861). -/
def idleStep (cfg : PromptCfg) (st : PromptState) (sessionID : Option String) :
    StepOut :=
  if sessionID = some cfg.agentSessionId then
    { st := st, events := [], dropLogs := 0, outcome := StepOutcome.idle }
  else
    skipStep st

/-- The `session.status` branch (bridge.py lines 863-883). -/
def statusStep (cfg : PromptCfg) (st : PromptState) (sessionID : Option String)
    (statusType : Option String) : StepOut :=
  if sessionID = some cfg.agentSessionId ∧ statusType = some "idle" then
    { st := st, events := [], dropLogs := 0, outcome := StepOutcome.idle }
  else
    skipStep st

/-- The `session.error` branch (bridge.py lines 885-900). -/
def errorStep (cfg : PromptCfg) (st : PromptState) (sessionID : Option String)
    (errorMessage : Option String) : StepOut :=
  if sessionID = some cfg.agentSessionId then
    { st := st,
      events := [BridgeEvent.error (pyStrOr errorMessage "Unknown error")
        cfg.cpMessageId],
      dropLogs := 0, outcome := StepOutcome.errored }
  else
    skipStep st

/-- The translator's handling of one SSE event (the body of the `async for` loop in
`_stream_opencode_response_sse`, bridge.py lines 789-900). -/
def processEvent (cfg : PromptCfg) (st : PromptState) (e : SSEEvent) : StepOut :=
  if e.type = "server.connected" then skipStep st
  else if e.type = "server.heartbeat" then skipStep st
  else
    if !(pyTruthy (pyOrStr e.sessionID (e.part.bind Part.sessionID))) ||
        pyOrStr e.sessionID (e.part.bind Part.sessionID) = some cfg.agentSessionId then
      if e.type = "message.updated" then
        admitStep cfg st (e.info.getD defaultMsgInfo)
      else if e.type = "message.part.updated" then
        partStep cfg st (e.part.getD defaultPart) e.delta
      else if e.type = "session.idle" then
        idleStep cfg st e.sessionID
      else if e.type = "session.status" then
        statusStep cfg st e.sessionID e.statusType
      else if e.type = "session.error" then
        errorStep cfg st e.sessionID e.errorMessage
      else
        skipStep st
    else
      skipStep st

/-- Why the translator loop ended. -/
inductive TermReason where
  /-- The SSE stream ended without a terminating event. -/
  | streamEnd
  /-- Terminated by `session.idle` / idle `session.status`. -/
  | idle
  /-- Terminated by `session.error`. -/
  | errored
deriving DecidableEq

/-- Result of running the translator over a whole SSE trace. -/
structure RunOut where
  st : PromptState
  events : List BridgeEvent
  dropLogs : Nat
  reason : TermReason
deriving DecidableEq

/-- Run the translator over a list of SSE events, stopping at the first
terminating event. -/
def runTranslator (cfg : PromptCfg) (st : PromptState) : List SSEEvent → RunOut
  | [] => { st := st, events := [], dropLogs := 0, reason := TermReason.streamEnd }
  | e :: rest =>
      let o := processEvent cfg st e
      match o.outcome with
      | StepOutcome.next =>
          let r := runTranslator cfg o.st rest
          { st := r.st, events := o.events ++ r.events, dropLogs := o.dropLogs + r.dropLogs,
            reason := r.reason }
      | StepOutcome.idle =>
          { st := o.st, events := o.events, dropLogs := o.dropLogs,
            reason := TermReason.idle }
      | StepOutcome.errored =>
          { st := o.st, events := o.events, dropLogs := o.dropLogs,
            reason := TermReason.errored }

/-! ## Final-state fetch (`_fetch_final_message_state`, lines 949-1027) -/

/-- One message of the `GET /session/<id>/message` response, flattened to the fields
the fetch reads. -/
structure FetchedMsg where
  role : String
  id : String
  parentID : String
  parts : List Part
deriving DecidableEq

/-- The inner loop over one message's parts: emit any text part strictly longer than
what was already sent for that part id, updating `cumulative_text`. -/
def finalFetchParts (cpMessageId : String) (cum : List (String × String)) :
    List Part → List (String × String) × List BridgeEvent
  | [] => (cum, [])
  | part :: rest =>
      if part.type = "text" ∧ (assocGetD cum part.id "").length < part.text.length then
        let o := finalFetchParts cpMessageId (assocSet cum part.id part.text) rest
        (o.1, BridgeEvent.token part.text cpMessageId :: o.2)
      else
        finalFetchParts cpMessageId cum rest

/-- `_fetch_final_message_state` over an already-decoded message list: only assistant
messages whose `parentID` matches our ascending id, or whose id was tracked during
SSE streaming, contribute. -/
def finalFetch (cfg : PromptCfg) (cum : List (String × String)) (tracked : List String) :
    List FetchedMsg → List (String × String) × List BridgeEvent
  | [] => (cum, [])
  | msg :: rest =>
      if msg.role ≠ "assistant" then finalFetch cfg cum tracked rest
      else if ¬(msg.parentID = cfg.opencodeMessageId) ∧
          ¬(tracked ≠ [] ∧ msg.id ∈ tracked) then
        finalFetch cfg cum tracked rest
      else
        ((finalFetch cfg (finalFetchParts cfg.cpMessageId cum msg.parts).1 tracked
            rest).1,
          (finalFetchParts cfg.cpMessageId cum msg.parts).2 ++
            (finalFetch cfg (finalFetchParts cfg.cpMessageId cum msg.parts).1 tracked
              rest).2)

/-! ## The whole prompt emission stream (`_handle_prompt`, lines 441-500) -/

/-- Everything `_handle_prompt` sends upstream for one prompt. -/
inductive UpEvent where
  | bridge (e : BridgeEvent)
  | executionComplete (success : Bool) (error : Option String) (messageId : String)
deriving DecidableEq

/-- The full upstream emission sequence of one prompt whose SSE subscription yields
`events` and whose final-state fetch (run only on idle termination) returns
`fetched`: the translator's events, then the fetch's events, then the terminal
`execution_complete`.  The stream generator returns normally on idle termination,
on `session.error`, and on SSE stream end, so `_handle_prompt` takes its success
path in all three cases. -/
def handlePromptSSE (cfg : PromptCfg) (events : List SSEEvent)
    (fetched : List FetchedMsg) : List UpEvent :=
  let r := runTranslator cfg initState events
  let finEvents :=
    match r.reason with
    | TermReason.idle =>
        (finalFetch cfg r.st.cumulativeText r.st.allowedAssistantMsgIds fetched).2
    | _ => []
  (r.events ++ finEvents).map UpEvent.bridge ++
    [UpEvent.executionComplete true none cfg.cpMessageId]

/-! ## Observation helpers used by the statements below -/

/-- The content of a `token` event, if the event is one. -/
def tokenContent : BridgeEvent → Option String
  | BridgeEvent.token c _ => some c
  | _ => none

/-- The success flag of the last emission, when it is an `execution_complete`. -/
def lastExecSuccess (evs : List UpEvent) : Option Bool :=
  match evs.getLast? with
  | some (UpEvent.executionComplete b _ _) => some b
  | _ => none

/-- Whether a bridge event is a `tool_call` with the given `callId` and `status`. -/
def isToolCallCS (c s : String) : BridgeEvent → Bool
  | BridgeEvent.toolCall _ _ c' s' _ _ => c' = c && s' = s
  | _ => false

/-- Whether an upstream emission is a `tool_call` with the given `callId` and `status`. -/
def isToolCallCSUp (c s : String) : UpEvent → Bool
  | UpEvent.bridge ev => isToolCallCS c s ev
  | _ => false

/-- The dedup key entered into `emitted_tool_states` (line 732). -/
def toolKey (c s : String) : String :=
  "tool:" ++ c ++ ":" ++ s

/-- 1 if `k` is in the list, else 0. -/
def memN (k : String) (l : List String) : Nat :=
  if k ∈ l then 1 else 0

/-- Total number of `(part, delta)` entries currently buffered in `pending_parts`. -/
def pendingCount (st : PromptState) : Nat :=
  (st.pendingParts.map (fun kv => kv.2.length)).sum

/-- The token contents emitted for part id `p` by a sequence of `(part, delta)`
updates processed through `handle_part`. -/
def tokenContentsFor (cfg : PromptCfg) (st : PromptState) (p : String) :
    List (Part × Option String) → List String
  | [] => []
  | (part, delta) :: rest =>
      let o := handlePart cfg st part delta
      (if part.id = p then o.2.filterMap tokenContent else []) ++
        tokenContentsFor cfg o.1 p rest

/-- Along a run of `handle_part` over these updates, every full-text replacement
(falsy `delta`) of a text part carries text at least as long as the text already
accumulated for that part id. -/
def nonShrinkRunB (cfg : PromptCfg) (st : PromptState) :
    List (Part × Option String) → Bool
  | [] => true
  | (part, delta) :: rest =>
      (if part.type = "text" && !(pyTruthy delta) then
        decide ((assocGetD st.cumulativeText part.id "").length ≤ part.text.length)
      else true) &&
        nonShrinkRunB cfg (handlePart cfg st part delta).1 rest

/-! # Theorems -/

/-! ## C7 — git identity configuration before a prompt -/

/-- C7: the code contradicts the claim (and the repository's own
`test_bridge_git_identity.py`): when either author field is missing,
`_handle_prompt` configures no git identity at all — there is no no-reply
fallback in `bridge.py`.  When both fields are present the author identity is
used, as the claim says. -/
theorem C7_git_identity_no_fallback :
    gitIdentityForPrompt { githubName := some "Jane Dev", githubEmail := none } = none ∧
    gitIdentityForPrompt { githubName := none, githubEmail := some "jane@example.com" } =
      none ∧
    gitIdentityForPrompt
        { githubName := some "Jane Dev"
          githubEmail := some "jane@example.com" } =
      some { name := "Jane Dev", email := "jane@example.com" } := by
  refine ⟨rfl, rfl, rfl⟩

/-! ## C8 — fatal websocket handshake rejection -/

/-- C8: if the control-plane websocket handshake is rejected with HTTP status
401, 403, 404 or 410, the run loop sets the shutdown flag, consumes no further
connection attempts and sleeps no reconnect delay: `run()` returns, which exits
the bridge process with code 0. -/
theorem C8_fatal_handshake_shutdown (s : Nat) (rest : List ConnectOutcome)
    (h : s = 401 ∨ s = 403 ∨ s = 404 ∨ s = 410) :
    runLoop false (ConnectOutcome.invalidStatus s :: rest) =
      { shutdown := true, attempts := 1, reconnects := 0 } := by
  have hc : classifyOutcome (ConnectOutcome.invalidStatus s) =
      LoopEffect.sessionTerminated := by
    rcases h with h | h | h | h <;> subst h <;> rfl
  simp [runLoop, hc]

/-- Witness for C8 at status 410 with a pending further outcome that is never
consumed. -/
theorem C8_fatal_handshake_shutdown_witness :
    runLoop false
        [ConnectOutcome.invalidStatus 410, ConnectOutcome.connectionClosed 1006] =
      { shutdown := true, attempts := 1, reconnects := 0 } :=
  C8_fatal_handshake_shutdown 410 [ConnectOutcome.connectionClosed 1006]
    (Or.inr (Or.inr (Or.inr rfl)))

/-! ## C10 — model field of the prompt request body -/

/-- C10 counterexample: a command carrying the empty model string gets no `model`
field at all (the code tests Python truthiness), whereas the claim as stated
requires `{providerID: "anthropic", modelID: ""}` for a model string without
`/`. -/
theorem C10_empty_model_counterexample :
    (buildPromptRequestBody "hi" (some "") none).model = none ∧
    (buildPromptRequestBody "hi" (some "") none).model ≠
      some { providerID := "anthropic", modelID := "" } := by
  exact ⟨rfl, by decide⟩

/-- A string different from `""` has `isEmpty = false`. -/
lemma isEmpty_false_of_ne (s : String) (h : s ≠ "") : s.isEmpty = false := by
  cases he : s.isEmpty
  · rfl
  · exact absurd ((String.isEmpty_iff s).mp he) h

/-- If a character list contains `/`, it decomposes as the part before the first
`/`, then `/`, then the remainder. -/
lemma slash_split_list (l : List Char) (h : l.any (fun c => c = '/') = true) :
    l.takeWhile (fun c => c ≠ '/') ++
      '/' :: (l.dropWhile (fun c => c ≠ '/')).drop 1 = l := by
  induction l with
  | nil => simp at h
  | cons c rest ih =>
      by_cases hc : c = '/'
      · subst hc
        simp [List.takeWhile, List.dropWhile]
      · have h' : rest.any (fun c => c = '/') = true := by
          simp [List.any_cons, hc] at h
          simpa using h
        simpa [List.takeWhile, List.dropWhile, hc] using ih h'

/-- The part of `m` before its first `/` contains no `/`. -/
lemma containsSlash_beforeSlash (m : String) :
    containsSlash (beforeSlash m) = false := by
  rw [Bool.eq_false_iff]
  intro h
  rw [containsSlash, List.any_eq_true] at h
  obtain ⟨x, hx, hx'⟩ := h
  have hmem : x ∈ m.toList.takeWhile (fun c => c ≠ '/') := hx
  have := List.mem_takeWhile_imp hmem
  simp at this hx'
  exact this hx'

/-- When `m` contains `/`, it is the concatenation of `beforeSlash m`, `/`, and
`afterSlash m`. -/
lemma beforeSlash_append (m : String) (h : containsSlash m = true) :
    beforeSlash m ++ "/" ++ afterSlash m = m := by
  apply String.ext
  rw [String.data_append, String.data_append]
  have : ("/" : String).data = ['/'] := rfl
  rw [this]
  show (m.toList.takeWhile (fun c => c ≠ '/')) ++ ['/'] ++
      ((m.toList.dropWhile (fun c => c ≠ '/')).drop 1) = m.data
  rw [List.append_assoc]
  exact slash_split_list m.toList h

/-- C10, amended: for a command carrying a *non-empty* model string, the model
field splits on the first `/` (provider before it, model after it), defaulting
the provider to `anthropic` when there is no `/`; when the command carries no
model, or the empty model string, the body has no model field. -/
theorem C10_model_split (content : String) (m : String) (ocid : Option String)
    (hm : m ≠ "") :
    ((containsSlash m = true →
        (buildPromptRequestBody content (some m) ocid).model =
          some { providerID := beforeSlash m, modelID := afterSlash m } ∧
        beforeSlash m ++ "/" ++ afterSlash m = m ∧
        containsSlash (beforeSlash m) = false) ∧
      (containsSlash m = false →
        (buildPromptRequestBody content (some m) ocid).model =
          some { providerID := "anthropic", modelID := m }) ∧
      (buildPromptRequestBody content none ocid).model = none ∧
      (buildPromptRequestBody content (some "") ocid).model = none) := by
  have htruthy : pyTruthy (some m) = true := by
    simp [pyTruthy, isEmpty_false_of_ne m hm]
  refine ⟨fun hs => ⟨?_, beforeSlash_append m hs, containsSlash_beforeSlash m⟩,
    fun hs => ?_, rfl, rfl⟩
  · simp [buildPromptRequestBody, htruthy, hs]
  · simp [buildPromptRequestBody, htruthy, hs]

/-- Witness for C10 on the model string `anthropic/claude-haiku-4-5` and for the
missing-model case. -/
theorem C10_model_split_witness :
    ("anthropic/claude-haiku-4-5" : String) ≠ "" ∧
    ((containsSlash "anthropic/claude-haiku-4-5" = true →
        (buildPromptRequestBody "hi" (some "anthropic/claude-haiku-4-5") none).model =
          some { providerID := beforeSlash "anthropic/claude-haiku-4-5",
                 modelID := afterSlash "anthropic/claude-haiku-4-5" } ∧
        beforeSlash "anthropic/claude-haiku-4-5" ++ "/" ++
            afterSlash "anthropic/claude-haiku-4-5" = "anthropic/claude-haiku-4-5" ∧
        containsSlash (beforeSlash "anthropic/claude-haiku-4-5") = false) ∧
      (containsSlash "anthropic/claude-haiku-4-5" = false →
        (buildPromptRequestBody "hi" (some "anthropic/claude-haiku-4-5") none).model =
          some { providerID := "anthropic", modelID := "anthropic/claude-haiku-4-5" }) ∧
      (buildPromptRequestBody "hi" none none).model = none ∧
      (buildPromptRequestBody "hi" (some "") none).model = none) :=
  ⟨by decide, C10_model_split "hi" "anthropic/claude-haiku-4-5" none (by decide)⟩

/-! ## C9 — push handling -/

/-- C9 counterexample: with token, owner and name all present but no `*/.git`
repository under the workspace, `_handle_push` runs no `git push` (it emits
`push_error{"No repository found"}` without a branch name), whereas the claim's
"otherwise" branch requires a forced push to run. -/
theorem C9_no_repo_counterexample :
    resolveGithubToken
        { branchName := "b", repoOwner := some "o", repoName := some "n",
          githubToken := some "t" }
        { githubAppToken := none, repoOwner := none, repoName := none } ≠ "" ∧
    resolvedRepoOwner
        { branchName := "b", repoOwner := some "o", repoName := some "n",
          githubToken := some "t" }
        { githubAppToken := none, repoOwner := none, repoName := none } ≠ "" ∧
    resolvedRepoName
        { branchName := "b", repoOwner := some "o", repoName := some "n",
          githubToken := some "t" }
        { githubAppToken := none, repoOwner := none, repoName := none } ≠ "" ∧
    handlePush
        { branchName := "b", repoOwner := some "o", repoName := some "n",
          githubToken := some "t" }
        { githubAppToken := none, repoOwner := none, repoName := none } false 0 =
      (none, [PushEvent.pushError "No repository found" none]) := by
  refine ⟨by decide, by decide, by decide, rfl⟩

/-- C9, amended: *when a working repository is found under the workspace*, a push
command with a missing resolved token, owner or name emits a single explanatory
`push_error` and runs no `git push`; otherwise it runs a forced push of `HEAD`
to `refs/heads/<branchName>` at the token-bearing URL, emitting
`push_error{branchName, error}` on non-zero exit and `push_complete{branchName}`
on zero exit. -/
theorem C9_push_behavior (cmd : PushCmd) (env : PushEnv) (pushExit : Int) :
    ((resolveGithubToken cmd env = "" ∨ resolvedRepoOwner cmd env = "" ∨
        resolvedRepoName cmd env = "") →
      handlePush cmd env true pushExit =
        (none, [PushEvent.pushError
          "Push failed - GitHub authentication token is required" (some cmd.branchName)])) ∧
    (resolveGithubToken cmd env ≠ "" → resolvedRepoOwner cmd env ≠ "" →
      resolvedRepoName cmd env ≠ "" →
      handlePush cmd env true pushExit =
        (some { url := pushUrlOf (resolveGithubToken cmd env) (resolvedRepoOwner cmd env)
                  (resolvedRepoName cmd env)
                refspec := "HEAD:refs/heads/" ++ cmd.branchName
                forced := true },
         if pushExit ≠ 0 then
           [PushEvent.pushError "Push failed - authentication may be required"
             (some cmd.branchName)]
         else [PushEvent.pushComplete cmd.branchName])) := by
  constructor
  · intro h
    have hcond : ((resolveGithubToken cmd env).isEmpty ||
        (resolvedRepoOwner cmd env).isEmpty || (resolvedRepoName cmd env).isEmpty) = true := by
      rcases h with h | h | h <;> simp [String.isEmpty_iff, h]
    simp [handlePush, hcond]
  · intro h1 h2 h3
    have hcond : ((resolveGithubToken cmd env).isEmpty ||
        (resolvedRepoOwner cmd env).isEmpty || (resolvedRepoName cmd env).isEmpty) = false := by
      simp [isEmpty_false_of_ne _ h1, isEmpty_false_of_ne _ h2, isEmpty_false_of_ne _ h3]
    by_cases he : pushExit = 0
    · simp [handlePush, hcond, he]
    · simp [handlePush, hcond, he]

/-- Witness for C9: a fully-credentialled push with exit code 0 emits
`push_complete` for the branch. -/
theorem C9_push_behavior_witness :
    handlePush
        { branchName := "feature-1", repoOwner := some "acme", repoName := some "app",
          githubToken := some "tok" }
        { githubAppToken := none, repoOwner := none, repoName := none } true 0 =
      (some { url := pushUrlOf "tok" "acme" "app"
              refspec := "HEAD:refs/heads/feature-1"
              forced := true },
       [PushEvent.pushComplete "feature-1"]) := by
  have h := (C9_push_behavior
    { branchName := "feature-1", repoOwner := some "acme", repoName := some "app",
      githubToken := some "tok" }
    { githubAppToken := none, repoOwner := none, repoName := none } 0).2
    (by decide) (by decide) (by decide)
  simpa using h

/-! ## C5 — cross-session filter -/

/-- C5: an SSE event whose session id (from its properties, or from its embedded
part) is present and differs from the bridge's agent session id produces no
upstream emission, no state change, no drop warning, and does not terminate the
prompt. -/
theorem C5_cross_session_filter (cfg : PromptCfg) (st : PromptState) (e : SSEEvent)
    (h1 : pyTruthy (pyOrStr e.sessionID (e.part.bind Part.sessionID)) = true)
    (h2 : pyOrStr e.sessionID (e.part.bind Part.sessionID) ≠ some cfg.agentSessionId) :
    processEvent cfg st e =
      { st := st, events := [], dropLogs := 0, outcome := StepOutcome.next } := by
  unfold processEvent skipStep
  split
  · rfl
  · split
    · rfl
    · rw [if_neg]
      simp [h1, h2]

/-- Witness for C5: a text part update for a foreign session id is dropped. -/
theorem C5_cross_session_filter_witness :
    pyTruthy (pyOrStr (SSEEvent.sessionID
        ⟨"message.part.updated", some "other-session", none, none, none, none, none⟩)
        ((SSEEvent.part
        ⟨"message.part.updated", some "other-session", none, none, none, none, none⟩).bind
          Part.sessionID)) = true ∧
    processEvent ⟨"oc-session-123", "msg_test", "cp-msg-1"⟩ initState
        ⟨"message.part.updated", some "other-session", none, none, none, none, none⟩ =
      { st := initState, events := [], dropLogs := 0, outcome := StepOutcome.next } :=
  ⟨by decide,
    C5_cross_session_filter _ _ _ (by decide) (by decide)⟩

/-! ## Association-list lemmas -/

lemma assocGetD_set_self {α : Type} (m : List (String × α)) (k : String) (v d : α) :
    assocGetD (assocSet m k v) k d = v := by
  induction m with
  | nil => simp [assocSet, assocGetD]
  | cons kv rest ih =>
      by_cases h : kv.1 = k
      · simp [assocSet, assocGetD, h]
      · simp [assocSet, assocGetD, h, ih]

lemma assocGetD_set_other {α : Type} (m : List (String × α)) (k q : String) (v d : α)
    (h : q ≠ k) : assocGetD (assocSet m k v) q d = assocGetD m q d := by
  have hkq : k ≠ q := Ne.symm h
  induction m with
  | nil => simp [assocSet, assocGetD, hkq]
  | cons kv rest ih =>
      by_cases hk : kv.1 = k
      · subst hk
        simp [assocSet, assocGetD, hkq]
      · simp only [assocSet, assocGetD, if_neg hk]
        by_cases hq : kv.1 = q <;> simp [hq, ih]

lemma sumLen_assocSet_append {β : Type} (m : List (String × List β)) (k : String)
    (x : β) :
    ((assocSet m k (assocGetD m k [] ++ [x])).map (fun kv => kv.2.length)).sum =
      ((m.map (fun kv => kv.2.length)).sum) + 1 := by
  induction m with
  | nil => simp [assocSet, assocGetD]
  | cons kv rest ih =>
      by_cases h : kv.1 = k
      · simp [assocSet, assocGetD, h]
        omega
      · simp [assocSet, assocGetD, h] at ih ⊢
        omega

lemma mem_keys_assocSet {α : Type} (m : List (String × α)) (k q : String) (v : α) :
    q ∈ (assocSet m k v).map Prod.fst ↔ q = k ∨ q ∈ m.map Prod.fst := by
  induction m with
  | nil => simp [assocSet]
  | cons kv rest ih =>
      by_cases h : kv.1 = k
      · subst h
        simp [assocSet]
      · simp [assocSet, h, ih]
        tauto

lemma keys_nodup_assocSet {α : Type} (m : List (String × α)) (k : String) (v : α)
    (h : (m.map Prod.fst).Nodup) : ((assocSet m k v).map Prod.fst).Nodup := by
  induction m with
  | nil => simp [assocSet]
  | cons kv rest ih =>
      rw [List.map_cons, List.nodup_cons] at h
      by_cases hk : kv.1 = k
      · subst hk
        simpa [assocSet, List.nodup_cons] using h
      · rw [assocSet, if_neg hk, List.map_cons, List.nodup_cons]
        refine ⟨?_, ih h.2⟩
        rw [mem_keys_assocSet]
        rintro (he | he)
        · exact hk he
        · exact h.1 he

lemma assocRemove_sublist {α : Type} (m : List (String × α)) (k : String) :
    (assocRemove m k).Sublist m := by
  induction m with
  | nil => simp [assocRemove]
  | cons kv rest ih =>
      by_cases h : kv.1 = k
      · rw [assocRemove, if_pos h]
        exact ih.cons kv
      · rw [assocRemove, if_neg h]
        exact ih.cons₂ kv

lemma keys_nodup_assocRemove {α : Type} (m : List (String × α)) (k : String)
    (h : (m.map Prod.fst).Nodup) : ((assocRemove m k).map Prod.fst).Nodup :=
  ((assocRemove_sublist m k).map Prod.fst).nodup h

lemma assocRemove_of_not_mem {α : Type} (m : List (String × α)) (k : String)
    (h : k ∉ m.map Prod.fst) : assocRemove m k = m := by
  induction m with
  | nil => rfl
  | cons kv rest ih =>
      rw [List.map_cons] at h
      simp only [List.mem_cons, not_or] at h
      rw [assocRemove, if_neg (fun he => h.1 he.symm), ih h.2]

lemma assocGetD_length_le {β : Type} (m : List (String × List β)) (k : String) :
    (assocGetD m k []).length ≤ ((m.map (fun kv => kv.2.length)).sum) := by
  induction m with
  | nil => simp [assocGetD]
  | cons kv rest ih =>
      by_cases h : kv.1 = k
      · simp [assocGetD, h]
      · simp [assocGetD, h]
        omega

lemma sumLen_assocRemove {β : Type} (m : List (String × List β)) (k : String)
    (h : (m.map Prod.fst).Nodup) :
    ((assocRemove m k).map (fun kv => kv.2.length)).sum =
      ((m.map (fun kv => kv.2.length)).sum) - (assocGetD m k []).length := by
  induction m with
  | nil => simp [assocRemove, assocGetD]
  | cons kv rest ih =>
      rw [List.map_cons, List.nodup_cons] at h
      by_cases hk : kv.1 = k
      · subst hk
        rw [assocRemove, if_pos rfl, assocRemove_of_not_mem rest kv.1 h.1]
        simp [assocGetD]
      · have hle := assocGetD_length_le rest k
        rw [assocRemove, if_neg hk]
        simp only [List.map_cons, List.sum_cons, assocGetD, if_neg hk, ih h.2]
        omega

/-! ## Frame lemmas for the translator -/

/-- `handle_part` touches only `cumulative_text` and `emitted_tool_states`. -/
lemma handlePart_frame (cfg : PromptCfg) (st : PromptState) (part : Part)
    (delta : Option String) :
    (handlePart cfg st part delta).1.pendingParts = st.pendingParts ∧
    (handlePart cfg st part delta).1.pendingTotal = st.pendingTotal ∧
    (handlePart cfg st part delta).1.dropLogged = st.dropLogged ∧
    (handlePart cfg st part delta).1.allowedAssistantMsgIds = st.allowedAssistantMsgIds := by
  unfold handlePart
  by_cases h1 : part.type = "text"
  · simp [if_pos h1]
  · simp only [if_neg h1]
    by_cases h2 : part.type = "tool"
    · simp only [if_pos h2]
      cases htr : transformPartToEvent part cfg.cpMessageId with
      | none => exact ⟨rfl, rfl, rfl, rfl⟩
      | some ev => refine ⟨?_, ?_, ?_, ?_⟩ <;> (split_ifs <;> rfl)
    · simp only [if_neg h2]
      refine ⟨?_, ?_, ?_, ?_⟩ <;> (split_ifs <;> rfl)

/-- `handleParts` (the flush loop) touches only `cumulative_text` and
`emitted_tool_states`. -/
lemma handleParts_frame (cfg : PromptCfg) :
    ∀ (pds : List (Part × Option String)) (st : PromptState),
    (handleParts cfg st pds).1.pendingParts = st.pendingParts ∧
    (handleParts cfg st pds).1.pendingTotal = st.pendingTotal ∧
    (handleParts cfg st pds).1.dropLogged = st.dropLogged ∧
    (handleParts cfg st pds).1.allowedAssistantMsgIds = st.allowedAssistantMsgIds := by
  intro pds
  induction pds with
  | nil => intro st; exact ⟨rfl, rfl, rfl, rfl⟩
  | cons pd rest ih =>
      intro st
      obtain ⟨p1, p2, p3, p4⟩ := handlePart_frame cfg st pd.1 pd.2
      obtain ⟨q1, q2, q3, q4⟩ := ih (handlePart cfg st pd.1 pd.2).1
      refine ⟨?_, ?_, ?_, ?_⟩ <;>
        simp only [handleParts, q1, q2, q3, q4, p1, p2, p3, p4]

/-- `buffer_part` preserves key uniqueness, the count/total equality, and the
global bound; at the bound it leaves the buffer untouched. -/
lemma bufferPart_inv (st : PromptState) (k : String) (part : Part)
    (delta : Option String)
    (hn : (st.pendingParts.map Prod.fst).Nodup)
    (he : pendingCount st = st.pendingTotal)
    (hb : st.pendingTotal ≤ MAX_PENDING_PART_EVENTS) :
    ((bufferPart st k part delta).1.pendingParts.map Prod.fst).Nodup ∧
    pendingCount (bufferPart st k part delta).1 =
      (bufferPart st k part delta).1.pendingTotal ∧
    (bufferPart st k part delta).1.pendingTotal ≤ MAX_PENDING_PART_EVENTS := by
  unfold bufferPart
  by_cases hc : st.pendingTotal ≥ MAX_PENDING_PART_EVENTS
  · simp only [if_pos hc]
    split <;> exact ⟨hn, he, hb⟩
  · simp only [if_neg hc]
    refine ⟨keys_nodup_assocSet _ _ _ hn, ?_, by omega⟩
    show ((assocSet st.pendingParts k
        (assocGetD st.pendingParts k [] ++ [(part, delta)])).map
          (fun kv => kv.2.length)).sum = st.pendingTotal + 1
    rw [sumLen_assocSet_append]
    unfold pendingCount at he
    omega

/-- `admitStep` preserves key uniqueness, the count/total equality, and the
global pending bound. -/
lemma admitStep_inv (cfg : PromptCfg) (st : PromptState) (info : MsgInfo)
    (hn : (st.pendingParts.map Prod.fst).Nodup)
    (he : pendingCount st = st.pendingTotal)
    (hb : st.pendingTotal ≤ MAX_PENDING_PART_EVENTS) :
    (((admitStep cfg st info).st.pendingParts.map Prod.fst).Nodup) ∧
    pendingCount (admitStep cfg st info).st = (admitStep cfg st info).st.pendingTotal ∧
    (admitStep cfg st info).st.pendingTotal ≤ MAX_PENDING_PART_EVENTS := by
  have hrem := sumLen_assocRemove st.pendingParts info.id hn
  have hgle := assocGetD_length_le st.pendingParts info.id
  unfold pendingCount at he ⊢
  unfold admitStep skipStep
  by_cases h1 : info.sessionID = some cfg.agentSessionId
  swap
  · simp only [if_neg h1]
    exact ⟨hn, he, hb⟩
  simp only [if_pos h1]
  by_cases h2 : info.role = "assistant" ∧ info.parentID = cfg.opencodeMessageId ∧
      info.id ≠ ""
  swap
  · simp only [if_neg h2]
    exact ⟨hn, he, hb⟩
  simp only [if_pos h2]
  by_cases h3 : assocGetD st.pendingParts info.id [] ≠ []
  · simp only [if_pos h3]
    refine ⟨?_, ?_, ?_⟩
    · rw [(handleParts_frame cfg _ _).1]
      exact keys_nodup_assocRemove _ _ hn
    · rw [(handleParts_frame cfg _ _).1, (handleParts_frame cfg _ _).2.1]
      show ((assocRemove st.pendingParts info.id).map (fun kv => kv.2.length)).sum =
        st.pendingTotal - (assocGetD st.pendingParts info.id []).length
      omega
    · rw [(handleParts_frame cfg _ _).2.1]
      show st.pendingTotal - (assocGetD st.pendingParts info.id []).length ≤
        MAX_PENDING_PART_EVENTS
      omega
  · simp only [if_neg h3]
    rw [not_ne_iff] at h3
    refine ⟨keys_nodup_assocRemove _ _ hn, ?_, hb⟩
    show ((assocRemove st.pendingParts info.id).map (fun kv => kv.2.length)).sum =
      st.pendingTotal
    rw [hrem, h3]
    simp only [List.length_nil]
    omega

/-- `partStep` preserves key uniqueness, the count/total equality, and the global
pending bound. -/
lemma partStep_inv (cfg : PromptCfg) (st : PromptState) (part : Part)
    (delta : Option String)
    (hn : (st.pendingParts.map Prod.fst).Nodup)
    (he : pendingCount st = st.pendingTotal)
    (hb : st.pendingTotal ≤ MAX_PENDING_PART_EVENTS) :
    (((partStep cfg st part delta).st.pendingParts.map Prod.fst).Nodup) ∧
    pendingCount (partStep cfg st part delta).st =
      (partStep cfg st part delta).st.pendingTotal ∧
    (partStep cfg st part delta).st.pendingTotal ≤ MAX_PENDING_PART_EVENTS := by
  unfold partStep skipStep
  split_ifs with h1 h2
  · obtain ⟨q1, q2, _, _⟩ := handlePart_frame cfg st part delta
    unfold pendingCount at he ⊢
    refine ⟨?_, ?_, ?_⟩ <;> simp only [q1, q2] <;>
      first
        | exact hn
        | exact he
        | exact hb
  · exact bufferPart_inv st part.messageID part delta hn he hb
  · exact ⟨hn, he, hb⟩

/-- One translator step preserves key uniqueness, the count/total equality, and
the global pending bound. -/
lemma processEvent_inv (cfg : PromptCfg) (st : PromptState) (e : SSEEvent)
    (hn : (st.pendingParts.map Prod.fst).Nodup)
    (he : pendingCount st = st.pendingTotal)
    (hb : st.pendingTotal ≤ MAX_PENDING_PART_EVENTS) :
    (((processEvent cfg st e).st.pendingParts.map Prod.fst).Nodup) ∧
    pendingCount (processEvent cfg st e).st = (processEvent cfg st e).st.pendingTotal ∧
    (processEvent cfg st e).st.pendingTotal ≤ MAX_PENDING_PART_EVENTS := by
  unfold processEvent idleStep statusStep errorStep skipStep
  split_ifs <;>
    first
      | exact ⟨hn, he, hb⟩
      | exact admitStep_inv cfg st _ hn he hb
      | exact partStep_inv cfg st _ _ hn he hb

/-- The whole translator run preserves key uniqueness, the count/total equality,
and the global pending bound. -/
lemma runTranslator_inv (cfg : PromptCfg) :
    ∀ (events : List SSEEvent) (st : PromptState),
    (st.pendingParts.map Prod.fst).Nodup →
    pendingCount st = st.pendingTotal →
    st.pendingTotal ≤ MAX_PENDING_PART_EVENTS →
    (((runTranslator cfg st events).st.pendingParts.map Prod.fst).Nodup) ∧
    pendingCount (runTranslator cfg st events).st =
      (runTranslator cfg st events).st.pendingTotal ∧
    (runTranslator cfg st events).st.pendingTotal ≤ MAX_PENDING_PART_EVENTS := by
  intro events
  induction events with
  | nil => intro st hn he hb; exact ⟨hn, he, hb⟩
  | cons e rest ih =>
      intro st hn he hb
      obtain ⟨hn', he', hb'⟩ := processEvent_inv cfg st e hn he hb
      unfold runTranslator
      cases ho : (processEvent cfg st e).outcome
      · simp only [ho]
        exact ih (processEvent cfg st e).st hn' he' hb'
      · simp only [ho]
        exact ⟨hn', he', hb'⟩
      · simp only [ho]
        exact ⟨hn', he', hb'⟩

/-- `buffer_part` logs the drop warning only when the flag is still unset, and
sets the flag when it logs. -/
lemma bufferPart_dropLogs (st : PromptState) (k : String) (part : Part)
    (delta : Option String) :
    (bufferPart st k part delta).2 + (if st.dropLogged then 1 else 0) ≤
      (if (bufferPart st k part delta).1.dropLogged then 1 else 0) := by
  unfold bufferPart
  split_ifs with h1 h2 <;> simp_all

/-- `skipStep` flags. -/
lemma skipStep_flags (st : PromptState) :
    (skipStep st).dropLogs = 0 ∧ (skipStep st).st = st :=
  ⟨rfl, rfl⟩

/-- `admitStep` logs no drop warning and leaves the flag alone. -/
lemma admitStep_dropLogs (cfg : PromptCfg) (st : PromptState) (info : MsgInfo) :
    (admitStep cfg st info).dropLogs = 0 ∧
    (admitStep cfg st info).st.dropLogged = st.dropLogged := by
  unfold admitStep skipStep
  by_cases h1 : info.sessionID = some cfg.agentSessionId
  swap
  · rw [if_neg h1]
    exact ⟨rfl, rfl⟩
  rw [if_pos h1]
  by_cases h2 : info.role = "assistant" ∧ info.parentID = cfg.opencodeMessageId ∧
      info.id ≠ ""
  swap
  · rw [if_neg h2]
    exact ⟨rfl, rfl⟩
  rw [if_pos h2]
  by_cases h3 : assocGetD st.pendingParts info.id [] ≠ []
  · rw [if_pos h3]
    refine ⟨rfl, ?_⟩
    show (handleParts cfg (flushState st info.id)
      (assocGetD st.pendingParts info.id [])).1.dropLogged = st.dropLogged
    rw [(handleParts_frame cfg _ _).2.2.1]
    rfl
  · rw [if_neg h3]
    exact ⟨rfl, rfl⟩

/-- `partStep` keeps the running drop-warning count below the flag indicator. -/
lemma partStep_dropLogs (cfg : PromptCfg) (st : PromptState) (part : Part)
    (delta : Option String) :
    (partStep cfg st part delta).dropLogs + (if st.dropLogged then 1 else 0) ≤
      (if (partStep cfg st part delta).st.dropLogged then 1 else 0) := by
  unfold partStep skipStep
  by_cases h1 : part.messageID ∈ st.allowedAssistantMsgIds
  · rw [if_pos h1]
    show (0 : Nat) + (if st.dropLogged then 1 else 0) ≤
      (if (handlePart cfg st part delta).1.dropLogged then 1 else 0)
    rw [(handlePart_frame cfg st part delta).2.2.1]
    omega
  · rw [if_neg h1]
    by_cases h2 : part.messageID ≠ ""
    · rw [if_pos h2]
      exact bufferPart_dropLogs st part.messageID part delta
    · rw [if_neg h2]
      show (0 : Nat) + (if st.dropLogged then 1 else 0) ≤
        (if st.dropLogged then 1 else 0)
      omega

/-- `idleStep` flags. -/
lemma idleStep_flags (cfg : PromptCfg) (st : PromptState) (sid : Option String) :
    (idleStep cfg st sid).dropLogs = 0 ∧ (idleStep cfg st sid).st = st := by
  unfold idleStep skipStep
  split_ifs <;> exact ⟨rfl, rfl⟩

/-- `statusStep` flags. -/
lemma statusStep_flags (cfg : PromptCfg) (st : PromptState)
    (sid stype : Option String) :
    (statusStep cfg st sid stype).dropLogs = 0 ∧ (statusStep cfg st sid stype).st = st := by
  unfold statusStep skipStep
  split_ifs <;> exact ⟨rfl, rfl⟩

/-- `errorStep` flags. -/
lemma errorStep_flags (cfg : PromptCfg) (st : PromptState)
    (sid emsg : Option String) :
    (errorStep cfg st sid emsg).dropLogs = 0 ∧ (errorStep cfg st sid emsg).st = st := by
  unfold errorStep skipStep
  split_ifs <;> exact ⟨rfl, rfl⟩

/-- One translator step keeps the running drop-warning count below the
`drop_logged` flag indicator. -/
lemma processEvent_dropLogs (cfg : PromptCfg) (st : PromptState) (e : SSEEvent) :
    (processEvent cfg st e).dropLogs + (if st.dropLogged then 1 else 0) ≤
      (if (processEvent cfg st e).st.dropLogged then 1 else 0) := by
  have hb : ∀ x : Nat, (0 : Nat) + x ≤ x := fun x => by omega
  unfold processEvent
  by_cases h1 : e.type = "server.connected"
  · rw [if_pos h1]
    exact hb _
  rw [if_neg h1]
  by_cases h2 : e.type = "server.heartbeat"
  · rw [if_pos h2]
    exact hb _
  rw [if_neg h2]
  by_cases h3 : (!(pyTruthy (pyOrStr e.sessionID (e.part.bind Part.sessionID))) ||
      pyOrStr e.sessionID (e.part.bind Part.sessionID) = some cfg.agentSessionId) = true
  swap
  · rw [if_neg h3]
    exact hb _
  rw [if_pos h3]
  by_cases h4 : e.type = "message.updated"
  · rw [if_pos h4]
    obtain ⟨d1, d2⟩ := admitStep_dropLogs cfg st (e.info.getD defaultMsgInfo)
    rw [d1, d2]
    exact hb _
  rw [if_neg h4]
  by_cases h5 : e.type = "message.part.updated"
  · rw [if_pos h5]
    exact partStep_dropLogs cfg st (e.part.getD defaultPart) e.delta
  rw [if_neg h5]
  by_cases h6 : e.type = "session.idle"
  · rw [if_pos h6]
    obtain ⟨d1, d2⟩ := idleStep_flags cfg st e.sessionID
    rw [d1, d2]
    exact hb _
  rw [if_neg h6]
  by_cases h7 : e.type = "session.status"
  · rw [if_pos h7]
    obtain ⟨d1, d2⟩ := statusStep_flags cfg st e.sessionID e.statusType
    rw [d1, d2]
    exact hb _
  rw [if_neg h7]
  by_cases h8 : e.type = "session.error"
  · rw [if_pos h8]
    obtain ⟨d1, d2⟩ := errorStep_flags cfg st e.sessionID e.errorMessage
    rw [d1, d2]
    exact hb _
  rw [if_neg h8]
  exact hb _

/-- The whole translator run logs at most `1 - flag` drop warnings. -/
lemma runTranslator_dropLogs (cfg : PromptCfg) :
    ∀ (events : List SSEEvent) (st : PromptState),
    (runTranslator cfg st events).dropLogs + (if st.dropLogged then 1 else 0) ≤
      (if (runTranslator cfg st events).st.dropLogged then 1 else 0) := by
  intro events
  induction events with
  | nil => intro st; simp [runTranslator]
  | cons e rest ih =>
      intro st
      have h1 := processEvent_dropLogs cfg st e
      unfold runTranslator
      cases ho : (processEvent cfg st e).outcome
      · simp only [ho]
        have h2 := ih (processEvent cfg st e).st
        show (processEvent cfg st e).dropLogs +
            (runTranslator cfg (processEvent cfg st e).st rest).dropLogs +
            (if st.dropLogged then 1 else 0) ≤
          (if (runTranslator cfg (processEvent cfg st e).st rest).st.dropLogged
            then 1 else 0)
        omega
      · simp only [ho]
        exact h1
      · simp only [ho]
        exact h1

/-- At the cap, `buffer_part` drops the addition: the buffer and its running
total are untouched. -/
lemma bufferPart_at_cap (st : PromptState) (k : String) (part : Part)
    (delta : Option String) (h : MAX_PENDING_PART_EVENTS ≤ st.pendingTotal) :
    (bufferPart st k part delta).1.pendingParts = st.pendingParts ∧
    (bufferPart st k part delta).1.pendingTotal = st.pendingTotal := by
  unfold bufferPart
  rw [if_pos h]
  split_ifs <;> exact ⟨rfl, rfl⟩

/-! ## C6 — bounded pending-part buffering -/

/-- C6: for every SSE trace of a prompt session, the number of `(part, delta)`
entries buffered in `pending_parts` never exceeds `MAX_PENDING_PART_EVENTS`
(2000); additions at the cap are dropped rather than buffered; and the drop
warning is logged at most once per prompt.  (Quantifying over all traces covers
every intermediate state, each being the final state of a prefix trace.) -/
theorem C6_pending_bound (cfg : PromptCfg) (events : List SSEEvent) :
    pendingCount (runTranslator cfg initState events).st ≤ MAX_PENDING_PART_EVENTS ∧
    (runTranslator cfg initState events).dropLogs ≤ 1 ∧
    (∀ (st : PromptState) (k : String) (part : Part) (delta : Option String),
      MAX_PENDING_PART_EVENTS ≤ st.pendingTotal →
      (bufferPart st k part delta).1.pendingParts = st.pendingParts ∧
      (bufferPart st k part delta).1.pendingTotal = st.pendingTotal) := by
  obtain ⟨hn, he, hb⟩ := runTranslator_inv cfg events initState
    (by simp [initState]) rfl (by norm_num [initState, MAX_PENDING_PART_EVENTS])
  refine ⟨by omega, ?_, fun st k part delta h => bufferPart_at_cap st k part delta h⟩
  have h := runTranslator_dropLogs cfg events initState
  have h0 : (if initState.dropLogged then 1 else 0) = 0 := by decide
  have h2 : (if (runTranslator cfg initState events).st.dropLogged then 1 else 0) ≤ 1 := by
    split_ifs <;> omega
  omega

/-- Witness for C6: the empty trace stays within the bound, and a state at the
cap drops a further addition. -/
theorem C6_pending_bound_witness :
    pendingCount (runTranslator ⟨"s1", "mo1", "m1"⟩ initState []).st ≤
      MAX_PENDING_PART_EVENTS ∧
    (runTranslator ⟨"s1", "mo1", "m1"⟩ initState []).dropLogs ≤ 1 ∧
    ((bufferPart ⟨[], [], [], [], 2000, false⟩ "m-full" defaultPart none).1.pendingParts =
        PromptState.pendingParts ⟨[], [], [], [], 2000, false⟩ ∧
      (bufferPart ⟨[], [], [], [], 2000, false⟩ "m-full" defaultPart none).1.pendingTotal =
        PromptState.pendingTotal ⟨[], [], [], [], 2000, false⟩) :=
  ⟨(C6_pending_bound ⟨"s1", "mo1", "m1"⟩ []).1,
   (C6_pending_bound ⟨"s1", "mo1", "m1"⟩ []).2.1,
   (C6_pending_bound ⟨"s1", "mo1", "m1"⟩ []).2.2 ⟨[], [], [], [], 2000, false⟩
     "m-full" defaultPart none (by decide)⟩

/-! ## C3 — tool_call deduplication -/

/-- On a tool part, `_transform_part_to_event` either suppresses or produces the
`tool_call` event whose `callId`/`status` come from the part itself. -/
lemma transform_tool_shape (part : Part) (mid : String) (ev : BridgeEvent)
    (ht : part.type = "tool")
    (he : transformPartToEvent part mid = some ev) :
    ev = BridgeEvent.toolCall part.tool part.stateInput part.callID part.stateStatus
      part.stateOutput mid := by
  unfold transformPartToEvent at he
  rw [if_neg (by simp [ht]), if_pos ht] at he
  split_ifs at he
  all_goals cases he
  all_goals rfl

/-- One `handle_part` call emits at most one `tool_call` per `(callId, status)`
pair, gated and recorded through `emitted_tool_states`. -/
lemma handlePart_countCS (cfg : PromptCfg) (st : PromptState) (part : Part)
    (delta : Option String) (c s : String) :
    (handlePart cfg st part delta).2.countP (isToolCallCS c s) +
      memN (toolKey c s) st.emittedToolStates ≤
      memN (toolKey c s) (handlePart cfg st part delta).1.emittedToolStates := by
  unfold handlePart
  by_cases h1 : part.type = "text"
  · rw [if_pos h1]
    split_ifs <;> simp [isToolCallCS, memN]
  rw [if_neg h1]
  by_cases h2 : part.type = "tool"
  · rw [if_pos h2]
    cases htr : transformPartToEvent part cfg.cpMessageId with
    | none => simp [memN]
    | some ev =>
        have hev := transform_tool_shape part cfg.cpMessageId ev h2 htr
        subst hev
        dsimp only
        by_cases hmem : ("tool:" ++ part.callID ++ ":" ++ part.stateStatus) ∈
            st.emittedToolStates
        · rw [if_pos hmem]
          simp [memN]
        · rw [if_neg hmem]
          by_cases hcs : part.callID = c ∧ part.stateStatus = s
          · obtain ⟨hc, hs⟩ := hcs
            subst hc; subst hs
            simp [isToolCallCS, memN, toolKey, hmem]
          · have hne : isToolCallCS c s (BridgeEvent.toolCall part.tool part.stateInput
                part.callID part.stateStatus part.stateOutput cfg.cpMessageId) = false := by
              simp only [isToolCallCS, Bool.and_eq_true, decide_eq_true_eq,
                Bool.and_eq_false_iff]
              rcases not_and_or.mp hcs with h | h
              · exact Or.inl (by simpa using h)
              · exact Or.inr (by simpa using h)
            have hkey : toolKey c s ∈
                (("tool:" ++ part.callID ++ ":" ++ part.stateStatus) ::
                  st.emittedToolStates) ↔ toolKey c s ∈ st.emittedToolStates ∨
                  toolKey c s = "tool:" ++ part.callID ++ ":" ++ part.stateStatus := by
              simp [List.mem_cons]
              tauto
            simp only [List.countP_cons, hne, List.countP_nil, memN]
            split_ifs with ha hb <;> simp_all
  rw [if_neg h2]
  split_ifs <;> simp [isToolCallCS, memN]

/-- The flush loop emits at most one `tool_call` per `(callId, status)` pair. -/
lemma handleParts_countCS (cfg : PromptCfg) (c s : String) :
    ∀ (pds : List (Part × Option String)) (st : PromptState),
    (handleParts cfg st pds).2.countP (isToolCallCS c s) +
      memN (toolKey c s) st.emittedToolStates ≤
      memN (toolKey c s) (handleParts cfg st pds).1.emittedToolStates := by
  intro pds
  induction pds with
  | nil => intro st; simp [handleParts]
  | cons pd rest ih =>
      intro st
      have h1 := handlePart_countCS cfg st pd.1 pd.2 c s
      have h2 := ih (handlePart cfg st pd.1 pd.2).1
      show ((handlePart cfg st pd.1 pd.2).2 ++
          (handleParts cfg (handlePart cfg st pd.1 pd.2).1 rest).2).countP
            (isToolCallCS c s) + memN (toolKey c s) st.emittedToolStates ≤
        memN (toolKey c s)
          (handleParts cfg (handlePart cfg st pd.1 pd.2).1 rest).1.emittedToolStates
      rw [List.countP_append]
      omega

/-- `bufferPart` never touches `emitted_tool_states`. -/
lemma bufferPart_emitted (st : PromptState) (k : String) (part : Part)
    (delta : Option String) :
    (bufferPart st k part delta).1.emittedToolStates = st.emittedToolStates := by
  unfold bufferPart
  split_ifs <;> rfl

/-- `admitStep` emits at most one `tool_call` per `(callId, status)` pair. -/
lemma admitStep_countCS (cfg : PromptCfg) (st : PromptState) (info : MsgInfo)
    (c s : String) :
    (admitStep cfg st info).events.countP (isToolCallCS c s) +
      memN (toolKey c s) st.emittedToolStates ≤
      memN (toolKey c s) (admitStep cfg st info).st.emittedToolStates := by
  unfold admitStep skipStep
  by_cases h1 : info.sessionID = some cfg.agentSessionId
  swap
  · rw [if_neg h1]
    simp
  rw [if_pos h1]
  by_cases h2 : info.role = "assistant" ∧ info.parentID = cfg.opencodeMessageId ∧
      info.id ≠ ""
  swap
  · rw [if_neg h2]
    simp
  rw [if_pos h2]
  by_cases h3 : assocGetD st.pendingParts info.id [] ≠ []
  · rw [if_pos h3]
    exact handleParts_countCS cfg c s (assocGetD st.pendingParts info.id [])
      (flushState st info.id)
  · rw [if_neg h3]
    show List.countP (isToolCallCS c s) [] + memN (toolKey c s) st.emittedToolStates ≤
      memN (toolKey c s) st.emittedToolStates
    simp

/-- `partStep` emits at most one `tool_call` per `(callId, status)` pair. -/
lemma partStep_countCS (cfg : PromptCfg) (st : PromptState) (part : Part)
    (delta : Option String) (c s : String) :
    (partStep cfg st part delta).events.countP (isToolCallCS c s) +
      memN (toolKey c s) st.emittedToolStates ≤
      memN (toolKey c s) (partStep cfg st part delta).st.emittedToolStates := by
  unfold partStep skipStep
  by_cases h1 : part.messageID ∈ st.allowedAssistantMsgIds
  · rw [if_pos h1]
    exact handlePart_countCS cfg st part delta c s
  rw [if_neg h1]
  by_cases h2 : part.messageID ≠ ""
  · rw [if_pos h2]
    show (0 : Nat) + memN (toolKey c s) st.emittedToolStates ≤
      memN (toolKey c s) (bufferPart st part.messageID part delta).1.emittedToolStates
    rw [bufferPart_emitted]
    omega
  · rw [if_neg h2]
    simp

/-- One translator step emits at most one `tool_call` per `(callId, status)`
pair, tracked through `emitted_tool_states`. -/
lemma processEvent_countCS (cfg : PromptCfg) (st : PromptState) (e : SSEEvent)
    (c s : String) :
    (processEvent cfg st e).events.countP (isToolCallCS c s) +
      memN (toolKey c s) st.emittedToolStates ≤
      memN (toolKey c s) (processEvent cfg st e).st.emittedToolStates := by
  unfold processEvent
  by_cases h1 : e.type = "server.connected"
  · rw [if_pos h1]
    simp [skipStep]
  rw [if_neg h1]
  by_cases h2 : e.type = "server.heartbeat"
  · rw [if_pos h2]
    simp [skipStep]
  rw [if_neg h2]
  by_cases h3 : (!(pyTruthy (pyOrStr e.sessionID (e.part.bind Part.sessionID))) ||
      pyOrStr e.sessionID (e.part.bind Part.sessionID) = some cfg.agentSessionId) = true
  swap
  · rw [if_neg h3]
    simp [skipStep]
  rw [if_pos h3]
  by_cases h4 : e.type = "message.updated"
  · rw [if_pos h4]
    exact admitStep_countCS cfg st _ c s
  rw [if_neg h4]
  by_cases h5 : e.type = "message.part.updated"
  · rw [if_pos h5]
    exact partStep_countCS cfg st _ e.delta c s
  rw [if_neg h5]
  by_cases h6 : e.type = "session.idle"
  · rw [if_pos h6]
    unfold idleStep skipStep
    split_ifs <;> simp
  rw [if_neg h6]
  by_cases h7 : e.type = "session.status"
  · rw [if_pos h7]
    unfold statusStep skipStep
    split_ifs <;> simp
  rw [if_neg h7]
  by_cases h8 : e.type = "session.error"
  · rw [if_pos h8]
    unfold errorStep skipStep
    split_ifs <;> simp [isToolCallCS]
  rw [if_neg h8]
  simp [skipStep]

/-- The whole translator run emits at most one `tool_call` per `(callId, status)`
pair. -/
lemma runTranslator_countCS (cfg : PromptCfg) (c s : String) :
    ∀ (events : List SSEEvent) (st : PromptState),
    (runTranslator cfg st events).events.countP (isToolCallCS c s) +
      memN (toolKey c s) st.emittedToolStates ≤
      memN (toolKey c s) (runTranslator cfg st events).st.emittedToolStates := by
  intro events
  induction events with
  | nil => intro st; simp [runTranslator]
  | cons e rest ih =>
      intro st
      have h1 := processEvent_countCS cfg st e c s
      unfold runTranslator
      cases ho : (processEvent cfg st e).outcome
      · simp only [ho]
        have h2 := ih (processEvent cfg st e).st
        show ((processEvent cfg st e).events ++
            (runTranslator cfg (processEvent cfg st e).st rest).events).countP
              (isToolCallCS c s) + memN (toolKey c s) st.emittedToolStates ≤
          memN (toolKey c s)
            (runTranslator cfg (processEvent cfg st e).st rest).st.emittedToolStates
        rw [List.countP_append]
        omega
      · simp only [ho]
        exact h1
      · simp only [ho]
        exact h1

/-- The final-state fetch emits no `tool_call` events (tokens only), per part
list. -/
lemma finalFetchParts_countCS (mid : String) (c s : String) :
    ∀ (parts : List Part) (cum : List (String × String)),
    (finalFetchParts mid cum parts).2.countP (isToolCallCS c s) = 0 := by
  intro parts
  induction parts with
  | nil => intro cum; simp [finalFetchParts]
  | cons part rest ih =>
      intro cum
      unfold finalFetchParts
      split_ifs with h
      · show (BridgeEvent.token part.text mid ::
          (finalFetchParts mid (assocSet cum part.id part.text) rest).2).countP
            (isToolCallCS c s) = 0
        simp [List.countP_cons, isToolCallCS, ih]
      · exact ih cum

/-- The final-state fetch emits no `tool_call` events. -/
lemma finalFetch_countCS (cfg : PromptCfg) (tracked : List String) (c s : String) :
    ∀ (msgs : List FetchedMsg) (cum : List (String × String)),
    (finalFetch cfg cum tracked msgs).2.countP (isToolCallCS c s) = 0 := by
  intro msgs
  induction msgs with
  | nil => intro cum; simp [finalFetch]
  | cons msg rest ih =>
      intro cum
      unfold finalFetch
      split_ifs with h1 h2
      · exact ih cum
      · exact ih cum
      · show ((finalFetchParts cfg.cpMessageId cum msg.parts).2 ++
            (finalFetch cfg (finalFetchParts cfg.cpMessageId cum msg.parts).1 tracked
              rest).2).countP (isToolCallCS c s) = 0
        rw [List.countP_append, finalFetchParts_countCS, ih]

/-- C3: within one prompt session, for every `(callId, status)` pair, at most one
`tool_call` event is emitted upstream, for any SSE trace and any final-fetch
response. -/
theorem C3_tool_call_once (cfg : PromptCfg) (events : List SSEEvent)
    (fetched : List FetchedMsg) (c s : String) :
    (handlePromptSSE cfg events fetched).countP (isToolCallCSUp c s) ≤ 1 := by
  unfold handlePromptSSE
  rw [List.countP_append, List.countP_map]
  have hrun := runTranslator_countCS cfg c s events initState
  have h0 : memN (toolKey c s) initState.emittedToolStates = 0 := by
    simp [memN, initState]
  have h1 : memN (toolKey c s)
      (runTranslator cfg initState events).st.emittedToolStates ≤ 1 := by
    unfold memN
    split_ifs <;> omega
  have hcomp : ((runTranslator cfg initState events).events ++
      (match (runTranslator cfg initState events).reason with
        | TermReason.idle =>
            (finalFetch cfg (runTranslator cfg initState events).st.cumulativeText
              (runTranslator cfg initState events).st.allowedAssistantMsgIds fetched).2
        | _ => [])).countP (isToolCallCSUp c s ∘ UpEvent.bridge) =
      ((runTranslator cfg initState events).events ++
      (match (runTranslator cfg initState events).reason with
        | TermReason.idle =>
            (finalFetch cfg (runTranslator cfg initState events).st.cumulativeText
              (runTranslator cfg initState events).st.allowedAssistantMsgIds fetched).2
        | _ => [])).countP (isToolCallCS c s) :=
    List.countP_congr (fun ev _ => Iff.rfl)
  rw [hcomp, List.countP_append]
  have hfin : (match (runTranslator cfg initState events).reason with
      | TermReason.idle =>
          (finalFetch cfg (runTranslator cfg initState events).st.cumulativeText
            (runTranslator cfg initState events).st.allowedAssistantMsgIds fetched).2
      | _ => []).countP (isToolCallCS c s) = 0 := by
    cases (runTranslator cfg initState events).reason
    · simp
    · exact finalFetch_countCS cfg _ c s fetched _
    · simp
  rw [hfin]
  have hexec : ([UpEvent.executionComplete true none cfg.cpMessageId]).countP
      (isToolCallCSUp c s) = 0 := by
    simp [isToolCallCSUp]
  rw [hexec]
  omega

/-! ## C2 — per-part token length monotonicity -/

/-- Outside the text branch, `handle_part` leaves `cumulative_text` alone. -/
lemma handlePart_cum_of_not_text (cfg : PromptCfg) (st : PromptState) (part : Part)
    (delta : Option String) (h1 : ¬part.type = "text") :
    (handlePart cfg st part delta).1.cumulativeText = st.cumulativeText := by
  unfold handlePart
  rw [if_neg h1]
  by_cases h2 : part.type = "tool"
  · rw [if_pos h2]
    cases htr : transformPartToEvent part cfg.cpMessageId with
    | none => rfl
    | some ev =>
        dsimp only
        split_ifs <;> rfl
  · rw [if_neg h2]
    split_ifs <;> rfl

/-- One `handle_part` call never shortens any accumulated text, provided a
full-text replacement of its own part carries text at least as long as the
accumulated text. -/
lemma handlePart_cum_mono (cfg : PromptCfg) (st : PromptState) (part : Part)
    (delta : Option String) (q : String)
    (h : part.type = "text" → pyTruthy delta = false →
      (assocGetD st.cumulativeText part.id "").length ≤ part.text.length) :
    (assocGetD st.cumulativeText q "").length ≤
      (assocGetD (handlePart cfg st part delta).1.cumulativeText q "").length := by
  by_cases h1 : part.type = "text"
  swap
  · rw [handlePart_cum_of_not_text cfg st part delta h1]
  · have hcum : (handlePart cfg st part delta).1.cumulativeText =
        assocSet st.cumulativeText part.id
          (if pyTruthy delta then assocGetD st.cumulativeText part.id "" ++ delta.getD ""
           else part.text) := by
      unfold handlePart
      rw [if_pos h1]
    rw [hcum]
    by_cases hq : q = part.id
    · subst hq
      rw [assocGetD_set_self]
      by_cases hd : pyTruthy delta
      · rw [if_pos hd, String.length_append]
        omega
      · rw [if_neg hd]
        exact h h1 (Bool.not_eq_true _ ▸ hd)
    · rw [assocGetD_set_other _ _ _ _ _ hq]

/-- The token events of one `handle_part` call are empty or the single snapshot
of the part's new accumulated text. -/
lemma handlePart_tokens (cfg : PromptCfg) (st : PromptState) (part : Part)
    (delta : Option String) :
    (handlePart cfg st part delta).2.filterMap tokenContent = [] ∨
    (handlePart cfg st part delta).2.filterMap tokenContent =
      [assocGetD (handlePart cfg st part delta).1.cumulativeText part.id ""] := by
  by_cases h1 : part.type = "text"
  · have hev : (handlePart cfg st part delta).2 =
        (if (if pyTruthy delta then assocGetD st.cumulativeText part.id "" ++
              delta.getD "" else part.text) ≠ "" then
          [BridgeEvent.token
            (if pyTruthy delta then assocGetD st.cumulativeText part.id "" ++
              delta.getD "" else part.text) cfg.cpMessageId]
         else []) := by
      unfold handlePart
      rw [if_pos h1]
    have hcum : assocGetD (handlePart cfg st part delta).1.cumulativeText part.id "" =
        (if pyTruthy delta then assocGetD st.cumulativeText part.id "" ++ delta.getD ""
         else part.text) := by
      unfold handlePart
      rw [if_pos h1]
      exact assocGetD_set_self _ _ _ _
    rw [hev, hcum]
    split_ifs <;> simp [tokenContent, List.filterMap_cons]
  · left
    unfold handlePart
    rw [if_neg h1]
    by_cases h2 : part.type = "tool"
    · rw [if_pos h2]
      cases htr : transformPartToEvent part cfg.cpMessageId with
      | none => rfl
      | some ev =>
          have hev := transform_tool_shape part cfg.cpMessageId ev h2 htr
          subst hev
          dsimp only
          split_ifs <;> rfl
    · rw [if_neg h2]
      split_ifs <;> rfl

/-- Weakening the head of a length-sorted chain. -/
lemma chain'_head_mono (a a' : String) (l : List String)
    (h : a.length ≤ a'.length)
    (hc : List.Chain' (fun x y : String => x.length ≤ y.length) (a' :: l)) :
    List.Chain' (fun x y : String => x.length ≤ y.length) (a :: l) := by
  cases l with
  | nil => exact List.chain'_singleton a
  | cons b l' =>
      rw [List.chain'_cons] at hc ⊢
      exact ⟨le_trans h hc.1, hc.2⟩

/-- Along a non-shrinking run of part updates, the accumulated text for `p` and
the token events emitted for `p` form a length-sorted chain. -/
lemma tokenChainAux (cfg : PromptCfg) (p : String) :
    ∀ (pds : List (Part × Option String)) (st : PromptState),
    nonShrinkRunB cfg st pds = true →
    List.Chain' (fun a b : String => a.length ≤ b.length)
      ((assocGetD st.cumulativeText p "") :: tokenContentsFor cfg st p pds) := by
  intro pds
  induction pds with
  | nil =>
      intro st _
      exact List.chain'_singleton _
  | cons pd rest ih =>
      intro st h
      unfold nonShrinkRunB at h
      rw [Bool.and_eq_true] at h
      obtain ⟨h1, h2⟩ := h
      have hmono : pd.1.type = "text" → pyTruthy pd.2 = false →
          (assocGetD st.cumulativeText pd.1.id "").length ≤ pd.1.text.length := by
        intro ht hd
        rw [if_pos (by rw [ht, hd]; simp)] at h1
        exact of_decide_eq_true h1
      have hm := handlePart_cum_mono cfg st pd.1 pd.2 p hmono
      have ih' := ih (handlePart cfg st pd.1 pd.2).1 h2
      show List.Chain' _ ((assocGetD st.cumulativeText p "") ::
        ((if pd.1.id = p then
            (handlePart cfg st pd.1 pd.2).2.filterMap tokenContent else []) ++
          tokenContentsFor cfg (handlePart cfg st pd.1 pd.2).1 p rest))
      by_cases hid : pd.1.id = p
      · rw [if_pos hid]
        rcases handlePart_tokens cfg st pd.1 pd.2 with ht | ht
        · rw [ht, List.nil_append]
          exact chain'_head_mono _ _ _ hm ih'
        · rw [hid] at ht
          rw [ht, List.singleton_append, List.chain'_cons]
          exact ⟨hm, ih'⟩
      · rw [if_neg hid, List.nil_append]
        exact chain'_head_mono _ _ _ hm ih'

/-- C2, amended: within one prompt session, for every `part_id`, the contents of
successive token events emitted for that part id are non-decreasing in length,
*provided* every full-text replacement processed carries text at least as long
as the text already accumulated for that part id (delta appends always
qualify). -/
theorem C2_token_monotone (cfg : PromptCfg) (p : String)
    (pds : List (Part × Option String))
    (h : nonShrinkRunB cfg initState pds = true) :
    List.Chain' (fun a b : String => a.length ≤ b.length)
      (tokenContentsFor cfg initState p pds) :=
  (tokenChainAux cfg p pds initState h).tail

/-- Witness for C2 on two delta-free full-text replays of growing length. -/
theorem C2_token_monotone_witness :
    nonShrinkRunB ⟨"s1", "mo1", "m1"⟩ initState
      [(⟨"text", "p1", some "s1", "M1", "hi", "", "", "", [], "", none, none, none⟩,
          none),
        (⟨"text", "p1", some "s1", "M1", "hi there", "", "", "", [], "", none, none,
          none⟩, none)] = true ∧
    List.Chain' (fun a b : String => a.length ≤ b.length)
      (tokenContentsFor ⟨"s1", "mo1", "m1"⟩ initState "p1"
        [(⟨"text", "p1", some "s1", "M1", "hi", "", "", "", [], "", none, none, none⟩,
            none),
          (⟨"text", "p1", some "s1", "M1", "hi there", "", "", "", [], "", none, none,
            none⟩, none)]) :=
  ⟨by decide,
    C2_token_monotone ⟨"s1", "mo1", "m1"⟩ "p1" _ (by decide)⟩

/-- C2 counterexample: as stated, the claim fails — a full-text replacement that
is *shorter* than the accumulated text (here "ab" replayed as "a") makes the
translator emit token events of decreasing length for the same part id. -/
theorem C2_shrinking_replacement_counterexample :
    ((runTranslator ⟨"s1", "mo1", "m1"⟩ initState
        [⟨"message.updated", none, none, none,
            some ⟨"M1", some "s1", "mo1", "assistant", ""⟩, none, none⟩,
          ⟨"message.part.updated", none,
            some ⟨"text", "p1", some "s1", "M1", "ab", "", "", "", [], "", none, none,
              none⟩, none, none, none, none⟩,
          ⟨"message.part.updated", none,
            some ⟨"text", "p1", some "s1", "M1", "a", "", "", "", [], "", none, none,
              none⟩, none, none, none, none⟩]).events.filterMap tokenContent =
      ["ab", "a"]) ∧
    ¬ List.Chain' (fun a b : String => a.length ≤ b.length)
        ((runTranslator ⟨"s1", "mo1", "m1"⟩ initState
          [⟨"message.updated", none, none, none,
              some ⟨"M1", some "s1", "mo1", "assistant", ""⟩, none, none⟩,
            ⟨"message.part.updated", none,
              some ⟨"text", "p1", some "s1", "M1", "ab", "", "", "", [], "", none, none,
                none⟩, none, none, none, none⟩,
            ⟨"message.part.updated", none,
              some ⟨"text", "p1", some "s1", "M1", "a", "", "", "", [], "", none, none,
                none⟩, none, none, none, none⟩]).events.filterMap tokenContent) := by
  refine ⟨by decide, ?_⟩
  intro hch
  have h : (runTranslator (⟨"s1", "mo1", "m1"⟩ : PromptCfg) initState
      [⟨"message.updated", none, none, none,
          some ⟨"M1", some "s1", "mo1", "assistant", ""⟩, none, none⟩,
        ⟨"message.part.updated", none,
          some ⟨"text", "p1", some "s1", "M1", "ab", "", "", "", [], "", none, none,
            none⟩, none, none, none, none⟩,
        ⟨"message.part.updated", none,
          some ⟨"text", "p1", some "s1", "M1", "a", "", "", "", [], "", none, none,
            none⟩, none, none, none, none⟩]).events.filterMap tokenContent =
      ["ab", "a"] := by decide
  rw [h, List.chain'_cons] at hch
  exact absurd hch.1 (by decide)

/-! ## C1 — session.error handling -/

/-- Splitting a translator run at a point where the first half ran to the end of
its stream without terminating. -/
lemma runTranslator_append (cfg : PromptCfg) (l1 l2 : List SSEEvent) :
    ∀ st : PromptState, (runTranslator cfg st l1).reason = TermReason.streamEnd →
    runTranslator cfg st (l1 ++ l2) =
      { st := (runTranslator cfg (runTranslator cfg st l1).st l2).st
        events := (runTranslator cfg st l1).events ++
          (runTranslator cfg (runTranslator cfg st l1).st l2).events
        dropLogs := (runTranslator cfg st l1).dropLogs +
          (runTranslator cfg (runTranslator cfg st l1).st l2).dropLogs
        reason := (runTranslator cfg (runTranslator cfg st l1).st l2).reason } := by
  induction l1 with
  | nil =>
      intro st _
      simp [runTranslator]
  | cons e rest ih =>
      intro st hr
      have hrr : runTranslator cfg st (e :: rest) =
          match (processEvent cfg st e).outcome with
          | StepOutcome.next =>
              { st := (runTranslator cfg (processEvent cfg st e).st rest).st
                events := (processEvent cfg st e).events ++
                  (runTranslator cfg (processEvent cfg st e).st rest).events
                dropLogs := (processEvent cfg st e).dropLogs +
                  (runTranslator cfg (processEvent cfg st e).st rest).dropLogs
                reason := (runTranslator cfg (processEvent cfg st e).st rest).reason }
          | StepOutcome.idle =>
              { st := (processEvent cfg st e).st
                events := (processEvent cfg st e).events
                dropLogs := (processEvent cfg st e).dropLogs
                reason := TermReason.idle }
          | StepOutcome.errored =>
              { st := (processEvent cfg st e).st
                events := (processEvent cfg st e).events
                dropLogs := (processEvent cfg st e).dropLogs
                reason := TermReason.errored } := rfl
      cases ho : (processEvent cfg st e).outcome with
      | next =>
          rw [hrr] at hr
          simp only [ho] at hr
          have hrr2 : runTranslator cfg st (e :: (rest ++ l2)) =
              { st := (runTranslator cfg (processEvent cfg st e).st (rest ++ l2)).st
                events := (processEvent cfg st e).events ++
                  (runTranslator cfg (processEvent cfg st e).st (rest ++ l2)).events
                dropLogs := (processEvent cfg st e).dropLogs +
                  (runTranslator cfg (processEvent cfg st e).st (rest ++ l2)).dropLogs
                reason :=
                  (runTranslator cfg (processEvent cfg st e).st (rest ++ l2)).reason } := by
            conv_lhs => unfold runTranslator
            simp only [ho]
          show runTranslator cfg st (e :: (rest ++ l2)) = _
          rw [hrr2, ih (processEvent cfg st e).st hr, hrr]
          simp only [ho]
          simp [List.append_assoc, Nat.add_assoc]
      | idle =>
          exfalso
          rw [hrr] at hr
          simp only [ho] at hr
          exact TermReason.noConfusion hr
      | errored =>
          exfalso
          rw [hrr] at hr
          simp only [ho] at hr
          exact TermReason.noConfusion hr

/-- A `session.error` event for the bridge's own agent session id yields exactly
one error event carrying the control-plane message id and ends the translator
loop with the `errored` reason. -/
lemma processEvent_sessionError (cfg : PromptCfg) (st : PromptState) (e : SSEEvent)
    (ht : e.type = "session.error") (hs : e.sessionID = some cfg.agentSessionId)
    (hne : cfg.agentSessionId ≠ "") :
    processEvent cfg st e =
      { st := st
        events := [BridgeEvent.error (pyStrOr e.errorMessage "Unknown error")
          cfg.cpMessageId]
        dropLogs := 0
        outcome := StepOutcome.errored } := by
  have hp : pyOrStr e.sessionID (e.part.bind Part.sessionID) = e.sessionID := by
    unfold pyOrStr
    rw [if_pos]
    rw [hs]
    simp [pyTruthy, isEmpty_false_of_ne _ hne]
  unfold processEvent
  rw [if_neg (by simp [ht]), if_neg (by simp [ht]),
    if_pos (by rw [hp, hs]; simp),
    if_neg (by simp [ht]), if_neg (by simp [ht]), if_neg (by simp [ht]),
    if_neg (by simp [ht]), if_pos ht]
  unfold errorStep
  rw [if_pos hs]

/-- C1, amended: when an SSE `session.error` event arrives whose sessionID equals
the bridge's agent session id, the bridge emits a single error event carrying
the control-plane messageId and terminates the prompt, consuming nothing further
from the stream; but because the stream generator returns normally,
`_handle_prompt` then takes its success path, so the prompt's terminal emission
is `execution_complete` with `success=true` (not `false` as claimed). -/
theorem C1_session_error_terminates (cfg : PromptCfg) (pre rest : List SSEEvent)
    (e : SSEEvent) (fetched : List FetchedMsg)
    (hpre : (runTranslator cfg initState pre).reason = TermReason.streamEnd)
    (ht : e.type = "session.error") (hs : e.sessionID = some cfg.agentSessionId)
    (hne : cfg.agentSessionId ≠ "") :
    handlePromptSSE cfg (pre ++ e :: rest) fetched =
      (runTranslator cfg initState pre).events.map UpEvent.bridge ++
      [UpEvent.bridge (BridgeEvent.error (pyStrOr e.errorMessage "Unknown error")
          cfg.cpMessageId),
        UpEvent.executionComplete true none cfg.cpMessageId] := by
  have hstep := processEvent_sessionError cfg (runTranslator cfg initState pre).st e
    ht hs hne
  have hrun : runTranslator cfg (runTranslator cfg initState pre).st (e :: rest) =
      { st := (runTranslator cfg initState pre).st
        events := [BridgeEvent.error (pyStrOr e.errorMessage "Unknown error")
          cfg.cpMessageId]
        dropLogs := 0
        reason := TermReason.errored } := by
    conv_lhs => unfold runTranslator
    rw [hstep]
  unfold handlePromptSSE
  rw [runTranslator_append cfg pre (e :: rest) initState hpre, hrun]
  simp

/-- Witness for C1 at a concrete error trace. -/
theorem C1_session_error_terminates_witness :
    (runTranslator ⟨"s1", "mo1", "m1"⟩ initState []).reason = TermReason.streamEnd ∧
    (SSEEvent.type ⟨"session.error", some "s1", none, none, none, none, some "boom"⟩ =
      "session.error") ∧
    handlePromptSSE ⟨"s1", "mo1", "m1"⟩
        ([] ++ (⟨"session.error", some "s1", none, none, none, none, some "boom"⟩ :
          SSEEvent) :: []) [] =
      (runTranslator ⟨"s1", "mo1", "m1"⟩ initState []).events.map UpEvent.bridge ++
      [UpEvent.bridge (BridgeEvent.error (pyStrOr (some "boom") "Unknown error") "m1"),
        UpEvent.executionComplete true none "m1"] :=
  ⟨rfl, rfl,
    C1_session_error_terminates ⟨"s1", "mo1", "m1"⟩ [] []
      ⟨"session.error", some "s1", none, none, none, none, some "boom"⟩ []
      rfl rfl rfl (by decide)⟩

/-- C1 counterexample: as stated, the claim fails — after the single error event,
the terminal emission carries `success=true`, because the SSE generator returns
normally on `session.error` and `_handle_prompt` then sends
`execution_complete{success: True}`. -/
theorem C1_success_flag_counterexample :
    handlePromptSSE ⟨"s1", "mo1", "m1"⟩
        [⟨"session.error", some "s1", none, none, none, none, some "boom"⟩] [] =
      [UpEvent.bridge (BridgeEvent.error "boom" "m1"),
        UpEvent.executionComplete true none "m1"] ∧
    lastExecSuccess (handlePromptSSE ⟨"s1", "mo1", "m1"⟩
        [⟨"session.error", some "s1", none, none, none, none, some "boom"⟩] []) =
      some true ∧
    lastExecSuccess (handlePromptSSE ⟨"s1", "mo1", "m1"⟩
        [⟨"session.error", some "s1", none, none, none, none, some "boom"⟩] []) ≠
      some false := by
  refine ⟨by decide, by decide, by decide⟩

/-! ## C4 — lexicographic monotonicity of the ascending ID generator -/

/-- The lowercase-hex character codes are ordered like their digits. -/
lemma hexCharCode_lt_of_lt (d1 d2 : Nat) (h : d1 < d2) :
    hexCharCode d1 < hexCharCode d2 := by
  unfold hexCharCode
  split_ifs <;> omega

/-- `lexLt` ignores a shared front. -/
lemma lexLt_append_same (p : List Nat) (l1 l2 : List Nat) :
    lexLt (p ++ l1) (p ++ l2) = lexLt l1 l2 := by
  induction p with
  | nil => rfl
  | cons a rest ih =>
      have hstep : lexLt (a :: (rest ++ l1)) (a :: (rest ++ l2)) =
          lexLt (rest ++ l1) (rest ++ l2) := by
        show (if a < a then true else if a < a then false
          else lexLt (rest ++ l1) (rest ++ l2)) = lexLt (rest ++ l1) (rest ++ l2)
        rw [if_neg (lt_irrefl a), if_neg (lt_irrefl a)]
      rw [List.cons_append, List.cons_append, hstep, ih]

/-- Fixed-width hex rendering is lexicographically monotone in the value, with
arbitrary suffixes attached. -/
lemma hexDigitsBE_lexLt :
    ∀ (w n1 n2 : Nat) (s1 s2 : List Nat), n1 < n2 → n2 < 16 ^ w →
    lexLt ((hexDigitsBE w n1).map hexCharCode ++ s1)
      ((hexDigitsBE w n2).map hexCharCode ++ s2) = true := by
  intro w
  induction w with
  | zero =>
      intro n1 n2 s1 s2 h1 h2
      simp at h2
      omega
  | succ w ihw =>
      intro n1 n2 s1 s2 h1 h2
      show lexLt (hexCharCode (n1 / 16 ^ w) ::
          ((hexDigitsBE w (n1 % 16 ^ w)).map hexCharCode ++ s1))
        (hexCharCode (n2 / 16 ^ w) ::
          ((hexDigitsBE w (n2 % 16 ^ w)).map hexCharCode ++ s2)) = true
      have hq : n1 / 16 ^ w ≤ n2 / 16 ^ w := Nat.div_le_div_right (le_of_lt h1)
      rcases lt_or_eq_of_le hq with hlt | heq
      · have hc := hexCharCode_lt_of_lt _ _ hlt
        unfold lexLt
        rw [if_pos hc]
      · rw [heq]
        unfold lexLt
        rw [if_neg (lt_irrefl _), if_neg (lt_irrefl _)]
        have e1 := Nat.div_add_mod n1 (16 ^ w)
        have e2 := Nat.div_add_mod n2 (16 ^ w)
        rw [heq] at e1
        have hmlt : n1 % 16 ^ w < n2 % 16 ^ w := by omega
        exact ihw _ _ s1 s2 hmlt (Nat.mod_lt _ (Nat.pos_pow_of_pos w (by omega)))

/-- Strictly larger encodings below the 48-bit wrap give lexicographically
strictly larger IDs, whatever the random suffixes. -/
lemma idCodes_lexLt (p : List Nat) (s1 s2 : IdGenState) (suf1 suf2 : List Nat)
    (h1 : encodedOf s1 < encodedOf s2) (h2 : encodedOf s2 < 2 ^ 48) :
    lexLt (idCodes p s1 suf1) (idCodes p s2 suf2) = true := by
  have hm1 : encoded48Of s1 = encodedOf s1 := Nat.mod_eq_of_lt (lt_trans h1 h2)
  have hm2 : encoded48Of s2 = encodedOf s2 := Nat.mod_eq_of_lt h2
  have he : ∀ (hex suf : List Nat), p ++ [95] ++ hex ++ suf =
      (p ++ [95]) ++ (hex ++ suf) := by
    intro hex suf
    simp [List.append_assoc]
  unfold idCodes
  rw [hm1, hm2, he, he, lexLt_append_same]
  exact hexDigitsBE_lexLt 12 _ _ _ _ h1
    (by rw [show (16 : Nat) ^ 12 = 2 ^ 48 by norm_num]; exact h2)

/-- One generator step strictly increases the encoding, provided the clock does
not go backwards and at most `0x1000` calls were made in the current
millisecond. -/
lemma enc_step_lt (s : IdGenState) (ts : Nat) (hts : s.lastTimestamp ≤ ts)
    (hc : s.counter ≤ 0x1000) : encodedOf s < encodedOf (idStep s ts) := by
  unfold idStep encodedOf
  split_ifs with h <;> dsimp only <;> omega

/-- Every ID generated later in a valid run has a strictly larger encoding still
below the 48-bit wrap. -/
lemma idRun_lb (p : List Nat) :
    ∀ (calls : List (Nat × List Nat)) (s : IdGenState),
    validRun s calls = true → s.counter ≤ 0x1000 →
    ∀ x ∈ idRun p s calls, ∃ (s' : IdGenState) (suf : List Nat),
      x = idCodes p s' suf ∧ encodedOf s < encodedOf s' ∧ encodedOf s' < 2 ^ 48 := by
  intro calls
  induction calls with
  | nil =>
      intro s _ _ x hx
      simp [idRun] at hx
  | cons c rest ih =>
      intro s hv hc x hx
      obtain ⟨ts, suf⟩ := c
      unfold validRun at hv
      simp only [Bool.and_eq_true, decide_eq_true_eq] at hv
      obtain ⟨⟨⟨h1, h2⟩, h3⟩, h4⟩ := hv
      unfold idRun at hx
      rcases List.mem_cons.mp hx with hx | hx
      · exact ⟨idStep s ts, suf, hx, enc_step_lt s ts h1 hc, h3⟩
      · obtain ⟨s', suf', hxe, hlt, hb⟩ := ih (idStep s ts) h4 h2 x hx
        exact ⟨s', suf', hxe, lt_trans (enc_step_lt s ts h1 hc) hlt, hb⟩

/-- In a valid run, the generated IDs are pairwise lexicographically
increasing. -/
lemma idRun_pairwise (p : List Nat) :
    ∀ (calls : List (Nat × List Nat)) (s : IdGenState),
    validRun s calls = true → s.counter ≤ 0x1000 →
    List.Pairwise (fun a b => lexLt a b = true) (idRun p s calls) := by
  intro calls
  induction calls with
  | nil => intro s _ _; exact List.Pairwise.nil
  | cons c rest ih =>
      intro s hv hc
      obtain ⟨ts, suf⟩ := c
      unfold validRun at hv
      simp only [Bool.and_eq_true, decide_eq_true_eq] at hv
      obtain ⟨⟨⟨h1, h2⟩, h3⟩, h4⟩ := hv
      show List.Pairwise _ (idCodes p (idStep s ts) suf :: idRun p (idStep s ts) rest)
      refine List.pairwise_cons.mpr ⟨?_, ih (idStep s ts) h4 h2⟩
      intro x hx
      obtain ⟨s', suf', hxe, hlt, hb⟩ := idRun_lb p rest (idStep s ts) h4 h2 x hx
      rw [hxe]
      exact idCodes_lexLt p (idStep s ts) s' suf suf' hlt hb

/-- C4, amended: for any sequence of `ascending` calls from a fresh process
(state `⟨0, 0⟩`) with one prefix, *provided* the clock never goes backwards, no
millisecond sees more than `0x1000` calls, and no encoded value
`timestamp_ms * 0x1000 + counter` reaches `2^48` (no 48-bit wrap of the masked
timestamp field), every later ID is lexicographically strictly greater than
every earlier one; and each `ascending` call produces exactly the
`{prefix}_{timestamp_hex}{random}` code sequence the run describes. -/
theorem C4_ascending_lex_mono (pfxKey pstr : String)
    (hp : idPfxTable pfxKey = some pstr) (calls : List (Nat × List Nat))
    (hv : validRun ⟨0, 0⟩ calls = true) :
    List.Pairwise (fun a b => lexLt a b = true)
      (idRun (strCodes pstr) ⟨0, 0⟩ calls) ∧
    (∀ (s : IdGenState) (ts : Nat) (suf : List Nat),
      ascending pfxKey s ts suf =
        some (idCodes (strCodes pstr) (idStep s ts) suf, idStep s ts)) := by
  refine ⟨idRun_pairwise (strCodes pstr) calls ⟨0, 0⟩ hv (by decide), ?_⟩
  intro s ts suf
  unfold ascending
  rw [hp]

/-- Witness for C4 on three calls: two in the same millisecond, one in the
next. -/
theorem C4_ascending_lex_mono_witness :
    idPfxTable "message" = some "msg" ∧
    validRun ⟨0, 0⟩ [(1000, [65]), (1000, [66]), (1001, [65])] = true ∧
    (List.Pairwise (fun a b => lexLt a b = true)
      (idRun (strCodes "msg") ⟨0, 0⟩ [(1000, [65]), (1000, [66]), (1001, [65])]) ∧
    (∀ (s : IdGenState) (ts : Nat) (suf : List Nat),
      ascending "message" s ts suf =
        some (idCodes (strCodes "msg") (idStep s ts) suf, idStep s ts))) :=
  ⟨rfl, by decide,
    C4_ascending_lex_mono "message" "msg" rfl [(1000, [65]), (1000, [66]), (1001, [65])]
      (by decide)⟩

/-- C4 counterexample: as stated, the claim fails — the 48-bit mask on the
encoded timestamp wraps roughly every 2.18 years (at multiples of `2^36`
milliseconds since the epoch, next in 2028), and two calls straddling the wrap
produce a later ID that is lexicographically *smaller*: the first ID's
timestamp field renders as `fffffffff001`, the second's as `000000000001`. -/
theorem C4_wrap_counterexample :
    (27 * 2 ^ 36 - 1 : Nat) < 27 * 2 ^ 36 ∧
    lexLt
      ((idRun (strCodes "msg") ⟨0, 0⟩
        [(27 * 2 ^ 36 - 1, [48]), (27 * 2 ^ 36, [48])]).getD 0 [])
      ((idRun (strCodes "msg") ⟨0, 0⟩
        [(27 * 2 ^ 36 - 1, [48]), (27 * 2 ^ 36, [48])]).getD 1 []) = false ∧
    lexLt
      ((idRun (strCodes "msg") ⟨0, 0⟩
        [(27 * 2 ^ 36 - 1, [48]), (27 * 2 ^ 36, [48])]).getD 1 [])
      ((idRun (strCodes "msg") ⟨0, 0⟩
        [(27 * 2 ^ 36 - 1, [48]), (27 * 2 ^ 36, [48])]).getD 0 []) = true := by
  refine ⟨by norm_num, by decide, by decide⟩

end Bridge
